import Mathlib

/-
  Verification development for the eagle-webdav repository: a read-only WebDAV
  server over the Eagle asset library (src/webdav/server.ts and its modules).

  Modelling conventions.
  * JavaScript strings are lists of characters (`Str`).  The percent-encoding
    layer (`encodeURI`, `decodeURIComponent`) is modelled at the character
    level: a character whose code point is below 256 is escaped as a single
    `%HH` triple.  JavaScript expands code points at or above 128 into
    multi-byte UTF-8 escape sequences; that charset-layer expansion is outside
    the model, and theorems that need the inverse property carry an explicit
    "all code points below 256" hypothesis.  `decodeURIComponent`'s UTF-8
    validation of decoded escape groups is likewise not modelled; decoding
    fails exactly on a `%` not followed by two hex digits (the
    malformed-escape `URIError`).  `none` models the thrown `URIError`.
  * The Eagle plugin API (`eagle.folder.getAll`, `eagle.item.getById`, ...) is
    an injected read-only store (`EagleStore`); each call site that the source
    wraps in `try`/`catch` is modelled with an `Except`-valued field, `.error`
    standing for a thrown backing-store failure.  The `typeof eagle ===
    'undefined'` guards are not modelled: the server only runs inside Eagle.
  * HTTP responses are a status, a header list and a structured body.  A
    WebDAV multistatus body is modelled as the list of its `<D:response>`
    elements (`DavEntry`), in emission order, keeping exactly the fields the
    source writes from its inputs; time-valued properties (`getlastmodified`,
    `creationdate`, `getetag`), which the source computes from clocks, are
    omitted.  Error-XML bodies are kept as their literal source strings.
  * Node's lenient base64 decoding (`Buffer.from(s, 'base64')` followed by
    `.toString('ascii')`) is modelled by dropping non-alphabet characters,
    decoding four-character groups, and masking each byte to 7 bits.
-/

abbrev Str := List Char

def str (s : String) : Str := s.data

def strToLower (s : Str) : Str := s.map Char.toLower

/-- The whitespace characters removed by JavaScript's `String.prototype.trim`
within the model's code-point range (below 256): space, tab, line feed,
carriage return, vertical tab, form feed, and no-break space U+00A0. -/
def isJsWhitespace (c : Char) : Bool :=
  [32, 9, 10, 13, 11, 12, 160].contains c.toNat

def hexVal (c : Char) : Option Nat :=
  let n := c.toNat
  if 48 ≤ n ∧ n ≤ 57 then some (n - 48)
  else if 65 ≤ n ∧ n ≤ 70 then some (n - 55)
  else if 97 ≤ n ∧ n ≤ 102 then some (n - 87)
  else none

def hexDigitChar (n : Nat) : Char :=
  if n < 10 then Char.ofNat ('0'.toNat + n) else Char.ofNat ('A'.toNat + n - 10)

def isAsciiAlphanum (c : Char) : Bool :=
  ('A' ≤ c && c ≤ 'Z') || ('a' ≤ c && c ≤ 'z') || ('0' ≤ c && c ≤ '9')

/-- The mark characters `encodeURI`/`encodeURIComponent` leave unescaped. -/
def isUriMark (c : Char) : Bool :=
  c == '-' || c == '_' || c == '.' || c == '!' || c == '~' || c == '*' ||
  c == '\'' || c == '(' || c == ')'

/-- The reserved characters `encodeURI` (but not `encodeURIComponent`) leaves unescaped. -/
def isUriReserved (c : Char) : Bool :=
  c == ';' || c == '/' || c == '?' || c == ':' || c == '@' || c == '&' ||
  c == '=' || c == '+' || c == '$' || c == ','

def isUnescapedInEncodeURI (c : Char) : Bool :=
  isAsciiAlphanum c || isUriMark c || isUriReserved c || c == '#'

def isUnescapedInEncodeURIComponent (c : Char) : Bool :=
  isAsciiAlphanum c || isUriMark c

def percentEncodeChar (c : Char) : Str :=
  ['%', hexDigitChar (c.toNat / 16 % 16), hexDigitChar (c.toNat % 16)]

/-- Model of JavaScript `encodeURI` (see the module header for the charset caveat). -/
def encodeURIChars : Str → Str
  | [] => []
  | c :: rest =>
    (if isUnescapedInEncodeURI c then [c] else percentEncodeChar c) ++ encodeURIChars rest

/-- Model of JavaScript `encodeURIComponent`. -/
def encodeURIComponentChars : Str → Str
  | [] => []
  | c :: rest =>
    (if isUnescapedInEncodeURIComponent c then [c] else percentEncodeChar c) ++
      encodeURIComponentChars rest

/-- Model of JavaScript `decodeURIComponent`; `none` is the thrown `URIError`. -/
def decodeURIComponentChars : Str → Option Str
  | [] => some []
  | c :: rest =>
    if c = '%' then
      match rest with
      | h1 :: h2 :: rest2 =>
        match hexVal h1, hexVal h2 with
        | some v1, some v2 =>
          (decodeURIComponentChars rest2).map (fun d => Char.ofNat (16 * v1 + v2) :: d)
        | _, _ => none
      | _ => none
    else
      (decodeURIComponentChars rest).map (fun d => c :: d)

/-- `xmlUtils.ts` `isAlreadyEncoded`: a path that contains `%` and whose single
decode succeeds and changes it is considered already encoded; a decode failure
is caught and treated as not encoded. -/
def isAlreadyEncoded (path : Str) : Bool :=
  if !(path.contains '%') then false
  else
    match decodeURIComponentChars path with
    | some decoded => decide (decoded ≠ path)
    | none => false

/-- `xmlUtils.ts` `generateHrefPath`: skip encoding when the path looks
already encoded, otherwise apply `encodeURI` once. -/
def generateHrefPath (path : Str) : Str :=
  if isAlreadyEncoded path then path else encodeURIChars path

/--
Fuel-indexed model of the decode-until-fixed-point loop in
`xmlUtils.ts` `recursiveDecodeURI`.  Each loop iteration either terminates or
strictly shrinks the string (a successful decode of a string containing `%` is
strictly shorter), so `length + 1` units of fuel are never exhausted; the fuel
only serves to make the recursion structural.
-/
def recursiveDecodeAux : Nat → Str → Str
  | 0, path => path
  | fuel + 1, path =>
    if path.contains '%' then
      match decodeURIComponentChars path with
      | none => path
      | some decoded =>
        if decoded = path then path
        else recursiveDecodeAux fuel decoded
    else path

def recursiveDecodeURI (path : Str) : Str :=
  recursiveDecodeAux (path.length + 1) path

def dropWhileEnd (p : Char → Bool) (s : Str) : Str := (s.reverse.dropWhile p).reverse

/-- The `path.replace(/^\/+|\/+$/g, '')` step of `normalizePath`. -/
def stripEnclosingSlashes (s : Str) : Str :=
  dropWhileEnd (· == '/') (s.dropWhile (· == '/'))

/-- JavaScript `String.prototype.trim` (ASCII whitespace). -/
def trimJs (s : Str) : Str :=
  dropWhileEnd isJsWhitespace (s.dropWhile isJsWhitespace)

/-- `xmlUtils.ts` `normalizePath`: strip enclosing slashes, trim, then decode
to a fixed point. -/
def normalizePath (path : Str) : Str :=
  recursiveDecodeURI (trimJs (stripEnclosingSlashes path))

/-- `path` is a fixed point of percent-decoding (a fully percent-decoded
string in the sense of the specification: decoding it either fails or returns
it unchanged). -/
def isCanonicalStr (path : Str) : Bool :=
  match decodeURIComponentChars path with
  | none => true
  | some d => decide (d = path)

/-- `xmlUtils.ts` `escapeXML`, one character at a time (the source's chain of
global replaces is equivalent because no replacement text contains a character
replaced by a later rule). -/
def escapeXMLChar (c : Char) : Str :=
  if c = '&' then str "&amp;"
  else if c = '<' then str "&lt;"
  else if c = '>' then str "&gt;"
  else if c = '"' then str "&quot;"
  else if c = '\'' then str "&#39;"
  else [c]

def escapeXML (s : Str) : Str := (s.map escapeXMLChar).flatten

/-- JavaScript `split` on a one-character separator. -/
def splitOnChar (sep : Char) : Str → List Str
  | [] => [[]]
  | c :: rest =>
    let r := splitOnChar sep rest
    if c = sep then [] :: r
    else
      match r with
      | [] => [[c]]
      | h :: t => (c :: h) :: t

/-- JavaScript `replace(/\/$/, '')`: drop one trailing slash. -/
def dropOneTrailingSlash (s : Str) : Str :=
  if s.getLast? = some '/' then s.dropLast else s

def natToStr (n : Nat) : Str := (Nat.repr n).data

/- ===================== Eagle data model (types.ts / the eagle API) ===================== -/

/-- An item as returned by the eagle API (`eagle.item.*`).  `ext` and
`filePath` use the empty string for an absent field, matching the falsiness
checks in the source; `importedAt` (a clock value) is omitted. -/
structure EagleApiItem where
  id : Str
  name : Str
  ext : Str
  size : Nat
  filePath : Str
deriving DecidableEq

mutual
/-- A folder of the eagle folder tree (`eagle.folder.getAll`); `createdAt` is
omitted (time-valued). -/
inductive EagleFolderTree where
  | node (id : Str) (name : Str) (children : EagleForest)
/-- A list of sibling folders, as a mutual inductive so that recursion over
the nested tree is structural. -/
inductive EagleForest where
  | nil
  | cons (head : EagleFolderTree) (tail : EagleForest)
end

/-- A tag from `eagle.tag.get()`; the `count` field is omitted (never used by
the XML the claims concern). -/
structure EagleTag where
  id : Str
  name : Str
deriving DecidableEq

structure ServerCredentials where
  username : Str
  password : Str
deriving DecidableEq

/-- The injected read-only backing store: one field per eagle API call the
server makes, `Except`-valued where the source guards the call with
`try`/`catch` (`.error` models a thrown backing failure), plus the persisted
credential pair and the `fs.existsSync` oracle used when streaming. -/
structure EagleStore where
  folders : Except Str EagleForest
  folderById : Str → Except Str (Option EagleFolderTree)
  folderItems : Str → Except Str (List EagleApiItem)
  itemById : Str → Except Str (Option EagleApiItem)
  countAll : Except Str Nat
  allItems : Except Str (List EagleApiItem)
  tags : Except Str (List EagleTag)
  tagItems : Str → Except Str (List EagleApiItem)
  fileExists : Str → Bool
  creds : ServerCredentials

/-- `EagleWebDAVFile` from types.ts (`lastModified` omitted: time-valued). -/
structure EagleWebDAVFile where
  id : Str
  name : Str
  size : Nat
  mimeType : Str
  path : Str
  ext : Str
deriving DecidableEq

/-- A child of a WebDAV collection: the source distinguishes files from
folders by the presence of a `size` respectively `children` property. -/
inductive WebDAVNode where
  | file (f : EagleWebDAVFile)
  | dir (id : Str) (name : Str) (path : Str) (children : List WebDAVNode)

/-- `EagleWebDAVFolder` from types.ts. -/
structure EagleWebDAVFolder where
  id : Str
  name : Str
  path : Str
  children : List WebDAVNode

def WebDAVNode.ofFolder (f : EagleWebDAVFolder) : WebDAVNode :=
  .dir f.id f.name f.path f.children

def isFileNode : WebDAVNode → Bool
  | .file _ => true
  | .dir .. => false

/- ===================== eagleUtils.ts ===================== -/

def mimeTable : List (Str × Str) :=
  [(str "jpg", str "image/jpeg"), (str "jpeg", str "image/jpeg"),
   (str "png", str "image/png"), (str "gif", str "image/gif"),
   (str "bmp", str "image/bmp"), (str "webp", str "image/webp"),
   (str "svg", str "image/svg+xml"), (str "mp4", str "video/mp4"),
   (str "avi", str "video/x-msvideo"), (str "mov", str "video/quicktime"),
   (str "mkv", str "video/x-matroska"), (str "mp3", str "audio/mpeg"),
   (str "wav", str "audio/wav"), (str "pdf", str "application/pdf"),
   (str "txt", str "text/plain"), (str "html", str "text/html"),
   (str "css", str "text/css"), (str "js", str "application/javascript"),
   (str "json", str "application/json"), (str "xml", str "application/xml"),
   (str "zip", str "application/zip"), (str "rar", str "application/x-rar-compressed"),
   (str "7z", str "application/x-7z-compressed")]

def getMimeType (ext : Str) : Str :=
  if ext = [] then str "application/octet-stream"
  else ((mimeTable.lookup (strToLower ext)).getD (str "application/octet-stream"))

/-- Conversion of an eagle item to the WebDAV file shape used throughout the
routes (the object literal repeated in eagleUtils.ts). -/
def toWebFile (item : EagleApiItem) : EagleWebDAVFile :=
  { id := item.id, name := item.name, size := item.size,
    mimeType := getMimeType item.ext, path := item.filePath, ext := item.ext }

mutual
/-- The `collectAllFolders` walk inside `getAllEagleFolders`: preorder
flattening of the whole tree into `(id, name)` pairs. -/
def collectAllFoldersTree : EagleFolderTree → List (Str × Str)
  | .node i n ch => (i, n) :: collectAllFoldersForest ch
def collectAllFoldersForest : EagleForest → List (Str × Str)
  | .nil => []
  | .cons t ts => collectAllFoldersTree t ++ collectAllFoldersForest ts
end

/-- The flat folder records produced by `getAllEagleFolders` (`lastModified`
omitted; children are always `[]` in the source). -/
structure FlatFolder where
  id : Str
  name : Str
  path : Str
deriving DecidableEq

/-- `getAllEagleFolders`: flatten every folder of the backing tree; a thrown
backing failure is caught and answered with the empty list. -/
def getAllEagleFolders (st : EagleStore) : List FlatFolder :=
  match st.folders with
  | .error _ => []
  | .ok forest =>
    (collectAllFoldersForest forest).map
      (fun p => { id := p.1, name := p.2, path := str "/folders/" ++ p.2 })

mutual
/-- The `searchForFolder` walk inside `getFolderByName`: depth-first, first
match by name wins. -/
def searchForFolderTree (name : Str) : EagleFolderTree → Option (Str × Str)
  | .node i n ch => if n = name then some (i, n) else searchForFolderForest name ch
def searchForFolderForest (name : Str) : EagleForest → Option (Str × Str)
  | .nil => none
  | .cons t ts =>
    match searchForFolderTree name t with
    | some f => some f
    | none => searchForFolderForest name ts
end

/-- `getFolderById`: fetch the folder, then the items it contains; children
are the folder's files only.  Any thrown failure is caught and answered with
`null` (the debug-only `eagle.item.get({})` probe, whose result is discarded,
is omitted). -/
def getFolderById (st : EagleStore) (id : Str) : Option EagleWebDAVFolder :=
  match st.folderById id with
  | .error _ => none
  | .ok none => none
  | .ok (some (.node fid fname _)) =>
    match st.folderItems id with
    | .error _ => none
    | .ok items =>
      some { id := fid, name := fname, path := str "/folders/" ++ fid,
             children := items.map (fun it => .file (toWebFile it)) }

/-- `getFolderByName`: depth-first search of the whole tree for the first
folder with the given name, then `getFolderById` on its id. -/
def getFolderByName (st : EagleStore) (name : Str) : Option EagleWebDAVFolder :=
  match st.folders with
  | .error _ => none
  | .ok forest =>
    match searchForFolderForest name forest with
    | none => none
    | some (fid, _) => getFolderById st fid

def getFileById (st : EagleStore) (id : Str) : Option EagleWebDAVFile :=
  match st.itemById id with
  | .error _ => none
  | .ok none => none
  | .ok (some item) => some (toWebFile item)

/-- `getAllEagleItems`: count first; more than 5000 items yields the empty
list; a thrown failure is caught and also yields the empty list. -/
def getAllEagleItems (st : EagleStore) : List EagleWebDAVFile :=
  match st.countAll with
  | .error _ => []
  | .ok totalCount =>
    if totalCount > 5000 then []
    else
      match st.allItems with
      | .error _ => []
      | .ok items => items.map toWebFile

/-- `buildHierarchicalPath` (always called without a parent path). -/
def buildHierarchicalPath (name : Str) : Str := '/' :: name

mutual
/-- `convertFoldersToWebDAV`: a folder becomes a dir node whose children are
its files (from `getFolderById`) followed by its recursively converted child
folders.  The per-folder catch-and-skip branch is unreachable here because
`getFolderById` already catches its own failures. -/
def convertFolderToWebDAV (st : EagleStore) : EagleFolderTree → WebDAVNode
  | .node i n ch =>
    let fileChildren :=
      match getFolderById st i with
      | some contents => contents.children.filter isFileNode
      | none => []
    .dir i n (buildHierarchicalPath n) (fileChildren ++ convertForestToWebDAV st ch)
def convertForestToWebDAV (st : EagleStore) : EagleForest → List WebDAVNode
  | .nil => []
  | .cons t ts => convertFolderToWebDAV st t :: convertForestToWebDAV st ts
end

/-- `getHierarchicalFolders`. -/
def getHierarchicalFolders (st : EagleStore) : List WebDAVNode :=
  match st.folders with
  | .error _ => []
  | .ok forest => convertForestToWebDAV st forest

/-- The level-by-level walk inside `getFolderByPath`: each segment is matched
against the names of the current level only. -/
def findFolderAtLevel (seg : Str) : EagleForest → Option EagleFolderTree
  | .nil => none
  | .cons (.node i n ch) ts =>
    if n = seg then some (.node i n ch) else findFolderAtLevel seg ts

def walkSegments : List Str → EagleForest → Option EagleFolderTree
  | [], _ => none
  | [seg], forest => findFolderAtLevel seg forest
  | seg :: rest, forest =>
    match findFolderAtLevel seg forest with
    | none => none
    | some (.node _ _ ch) => walkSegments rest ch

/-- `getFolderByPath`: the root path yields the synthetic Index folder with
the whole hierarchy; otherwise walk the segments, then take only the files of
the resolved folder. -/
def getFolderByPath (st : EagleStore) (path : Str) : Option EagleWebDAVFolder :=
  if path = str "/" ∨ path = [] then
    some { id := str "root", name := str "Index", path := str "/",
           children := getHierarchicalFolders st }
  else
    let pathSegments := (splitOnChar '/' path).filter (· ≠ [])
    if pathSegments = [] then none
    else
      match st.folders with
      | .error _ => none
      | .ok rootFolders =>
        match walkSegments pathSegments rootFolders with
        | none => none
        | some (.node tid tname _) =>
          match getFolderById st tid with
          | none => none
          | some contents =>
            some { id := tid, name := tname, path := path,
                   children := contents.children.filter isFileNode }

def getItemsByTag (st : EagleStore) (tagName : Str) : List EagleWebDAVFile :=
  match st.tagItems tagName with
  | .error _ => []
  | .ok items => items.map toWebFile

/-- `getAllTagsWithCounts` (tags route): every tag becomes a dir node with
path `/tags/{name}` and no children; `id` falls back to the name when empty,
the `count` field is omitted. -/
def getAllTagsWithCounts (st : EagleStore) : List WebDAVNode :=
  match st.tags with
  | .error _ => []
  | .ok tags =>
    tags.map (fun t => .dir (if t.id = [] then t.name else t.id) t.name
      (str "/tags/" ++ t.name) [])

/-- `getRootContainer`: the four namespace roots. -/
def getRootContainer : List WebDAVNode :=
  [.dir (str "allItems") (str "allItems") (str "/allItems") [],
   .dir (str "folders") (str "folders") (str "/folders") [],
   .dir (str "hierarchy") (str "hierarchy") (str "/hierarchy") [],
   .dir (str "tags") (str "tags") (str "/tags") []]

/- ===================== multistatus XML model ===================== -/

/-- One `<D:response>` element of a multistatus body, keeping exactly the
fields the source computes from its inputs (time-valued properties omitted,
see the module header).  `displayName` holds the emitted text, so it is
XML-escaped exactly where the source escapes it. -/
structure DavEntry where
  href : Str
  isCollection : Bool
  displayName : Str
  contentLength : Option Nat
  contentType : Option Str
deriving DecidableEq

def mimeOrDefault (m : Str) : Str :=
  if m = [] then str "application/octet-stream" else m

/-- The display-name rule shared by the folders and allItems generators: the
extension is appended unless the lowercased name already ends with it. -/
def fileDisplayName (f : EagleWebDAVFile) : Str :=
  if f.ext ≠ [] ∧ ¬ ('.' :: strToLower f.ext).isSuffixOf (strToLower f.name) then
    f.name ++ '.' :: f.ext
  else f.name

/-- `routes/folders/xml.ts` `generateFolderListXML`: a self element for the
requested path (always), then one collection element `/folders/{name}` per
flattened folder when the depth is not zero. -/
def generateFolderListXML (pathname : Str) (folders : List FlatFolder)
    (isDepthZero : Bool) : List DavEntry :=
  { href := pathname, isCollection := true, displayName := str "Folders",
    contentLength := none, contentType := none } ::
  (if isDepthZero then []
   else folders.map (fun f =>
     { href := str "/folders/" ++ f.name, isCollection := true, displayName := f.name,
       contentLength := none, contentType := none }))

def rootContainerIds : List Str :=
  [str "allItems", str "uncategorized", str "folders", str "tags"]

def contentXMLRootPaths : List Str :=
  [str "/", str "/folders", str "/allItems", str "/tags", str "/uncategorized"]

/-- A child element of `generateFolderContentXML` (the source's fallback
branch for an item that is neither a folder nor a file cannot arise: every
`WebDAVNode` is one of the two). -/
def folderContentChildEntry : WebDAVNode → DavEntry
  | .dir i n p _ =>
    let itemPath :=
      if rootContainerIds.contains i then (if p = [] then '/' :: n else p)
      else str "/folders/" ++ n
    { href := itemPath, isCollection := true, displayName := n,
      contentLength := none, contentType := none }
  | .file f =>
    { href := str "/files/" ++ f.id, isCollection := false,
      displayName := fileDisplayName f, contentLength := some f.size,
      contentType := some (mimeOrDefault f.mimeType) }

/-- The self display name of `generateFolderContentXML`: the folder name when
provided and non-empty, otherwise a path-derived fallback. -/
def folderContentSelfName (pathname : Str) (folderName : Option Str) : Str :=
  let lastSeg := ((splitOnChar '/' pathname).getLast?).getD []
  if (folderName.getD []) ≠ [] then folderName.getD []
  else if pathname = str "/" then str "Eagle Library"
  else if pathname = str "/folders" then str "Folders"
  else if lastSeg = [] then str "Unknown" else lastSeg

/-- `routes/folders/xml.ts` `generateFolderContentXML`: the self element is
included only for the listed root paths or at depth zero. -/
def generateFolderContentXML (pathname : Str) (items : List WebDAVNode)
    (isDepthZero : Bool) (folderName : Option Str) : List DavEntry :=
  let shouldIncludeCurrentDirectory :=
    contentXMLRootPaths.contains pathname || isDepthZero
  let selfEntry : List DavEntry :=
    if shouldIncludeCurrentDirectory then
      [{ href := pathname, isCollection := true,
         displayName := folderContentSelfName pathname folderName,
         contentLength := none, contentType := none }]
    else []
  selfEntry ++ (if isDepthZero then [] else items.map folderContentChildEntry)

/-- `routes/allItems/xml.ts` `generateAllItemsListXML`: self element (href via
`generateHref`), then one file element per item with href
`/files/{id}/{displayName}`. -/
def generateAllItemsListXML (pathname : Str) (items : List EagleWebDAVFile)
    (isDepthZero : Bool) : List DavEntry :=
  { href := generateHrefPath pathname, isCollection := true,
    displayName := escapeXML (str "All Items"),
    contentLength := none, contentType := none } ::
  (if isDepthZero then []
   else items.map (fun it =>
     let displayName := fileDisplayName it
     let itemPath := str "/files/" ++ it.id ++ str "/" ++ displayName
     { href := generateHrefPath itemPath, isCollection := false,
       displayName := escapeXML displayName, contentLength := some it.size,
       contentType := some (mimeOrDefault it.mimeType) }))

def nodeFullFileName (f : EagleWebDAVFile) : Str :=
  f.name ++ (if f.ext = [] then [] else '.' :: f.ext)

/-- A child element of `generateIndexContentXML` (hierarchy route). -/
def indexContentChildEntry (requestPath : Str) (item : WebDAVNode) : DavEntry :=
  let endsSlash := requestPath.getLast? = some '/'
  match item with
  | .dir _ n _ _ =>
    let itemPath :=
      if endsSlash then requestPath ++ encodeURIChars n ++ [ '/' ]
      else requestPath ++ '/' :: encodeURIChars n ++ [ '/' ]
    { href := generateHrefPath itemPath, isCollection := true,
      displayName := escapeXML n, contentLength := none, contentType := none }
  | .file f =>
    let filename := nodeFullFileName f
    let itemPath :=
      if endsSlash then requestPath ++ encodeURIChars filename
      else requestPath ++ '/' :: encodeURIChars filename
    { href := generateHrefPath itemPath, isCollection := false,
      displayName := escapeXML filename, contentLength := some f.size,
      contentType := some (escapeXML (mimeOrDefault f.mimeType)) }

/-- `routes/hierarchy/xml.ts` `generateIndexContentXML`: the self element is
always pushed first; at depth zero only the self element is returned. -/
def generateIndexContentXML (requestPath : Str) (items : List WebDAVNode)
    (isDepthZero : Bool) (displayName : Str) : List DavEntry :=
  let selfEntry : DavEntry :=
    { href := generateHrefPath requestPath, isCollection := true,
      displayName := escapeXML displayName, contentLength := none, contentType := none }
  if isDepthZero then [selfEntry]
  else selfEntry :: items.map (indexContentChildEntry requestPath)

def nodeName : WebDAVNode → Str
  | .file f => f.name
  | .dir _ n _ _ => n

/-- `routes/tags/xml.ts` `generateTagFolderXML`. -/
def tagFolderEntry (basePath : Str) (tag : WebDAVNode) : DavEntry :=
  let tagPath := basePath ++ '/' :: encodeURIComponentChars (nodeName tag)
  let displayName := if nodeName tag = [] then str "Unnamed Tag" else nodeName tag
  { href := escapeXML tagPath ++ [ '/' ], isCollection := true,
    displayName := escapeXML displayName, contentLength := none,
    contentType := some (str "httpd/unix-directory") }

/-- `routes/tags/xml.ts` `generateFileXML`. -/
def tagFileEntry (basePath : Str) (f : EagleWebDAVFile) : DavEntry :=
  let fileName := nodeFullFileName f
  let filePath := basePath ++ '/' :: encodeURIComponentChars fileName
  { href := escapeXML filePath, isCollection := false,
    displayName := escapeXML fileName, contentLength := some f.size,
    contentType := some (escapeXML (mimeOrDefault f.mimeType)) }

/-- `routes/tags/xml.ts` `generateTagsListXML`: the current-collection element
is always added; with a tag name only file children are emitted, otherwise one
tag-folder element per item. -/
def generateTagsListXML (requestPath : Str) (items : List WebDAVNode)
    (depthZero : Bool) (tagName : Option Str) : List DavEntry :=
  let selfEntry : DavEntry :=
    { href := escapeXML requestPath ++ [ '/' ], isCollection := true,
      displayName := escapeXML (if (tagName.getD []) = [] then str "tags" else tagName.getD []),
      contentLength := none, contentType := some (str "httpd/unix-directory") }
  if depthZero then [selfEntry]
  else
    selfEntry ::
      (items.map (fun item =>
        if (tagName.getD []) ≠ [] then
          match item with
          | .file f => [tagFileEntry requestPath f]
          | .dir .. => []
        else [tagFolderEntry requestPath item])).flatten

/-- `server.ts` `generateSingleFilePROPFIND` (one-element multistatus; href
via `encodeURI`, display name unescaped, exactly as in the source). -/
def generateSingleFilePROPFIND (requestPath : Str) (file : EagleWebDAVFile) :
    List DavEntry :=
  [{ href := encodeURIChars requestPath, isCollection := false,
     displayName := nodeFullFileName file, contentLength := some file.size,
     contentType := some (mimeOrDefault file.mimeType) }]

/- ===================== auth/auth.ts ===================== -/

def base64CharVal (c : Char) : Option Nat :=
  if 'A' ≤ c ∧ c ≤ 'Z' then some (c.toNat - 'A'.toNat)
  else if 'a' ≤ c ∧ c ≤ 'z' then some (c.toNat - 'a'.toNat + 26)
  else if '0' ≤ c ∧ c ≤ '9' then some (c.toNat - '0'.toNat + 52)
  else if c = '+' then some 62
  else if c = '/' then some 63
  else none

def base64GroupBytes : List Nat → List Nat
  | v1 :: v2 :: v3 :: v4 :: rest =>
    (v1 * 4 + v2 / 16) :: ((v2 % 16) * 16 + v3 / 4) :: ((v3 % 4) * 64 + v4) ::
      base64GroupBytes rest
  | [v1, v2, v3] => [v1 * 4 + v2 / 16, (v2 % 16) * 16 + v3 / 4]
  | [v1, v2] => [v1 * 4 + v2 / 16]
  | _ => []

/-- Node's `Buffer.from(s, 'base64').toString('ascii')` (see module header). -/
def base64DecodeAscii (s : Str) : Str :=
  (base64GroupBytes (s.filterMap base64CharVal)).map (fun b => Char.ofNat (b % 128))

structure AuthResult where
  success : Bool
  username : Option Str
  error : Option Str
deriving DecidableEq

/-- `parseBasicAuth`: requires the `Basic ` scheme prefix, base64-decodes the
remainder, splits on `:` and requires a non-empty user and password (the
destructuring takes the first two split parts). -/
def parseBasicAuth (authHeader : Str) : Option (Str × Str) :=
  if ¬ (str "Basic ").isPrefixOf authHeader then none
  else
    let credentials := base64DecodeAscii (authHeader.drop 6)
    match splitOnChar ':' credentials with
    | [] => none
    | [_] => none
    | username :: password :: _ =>
      if username = [] ∨ password = [] then none
      else some (username, password)

/-- `authenticateRequest`: missing header, unparsable header and wrong
credentials each produce a failed result. -/
def authenticateRequest (creds : ServerCredentials) (authHeader : Option Str) :
    AuthResult :=
  match authHeader with
  | none =>
    { success := false, username := none,
      error := some (str "No authorization header provided") }
  | some h =>
    match parseBasicAuth h with
    | none =>
      { success := false, username := none,
        error := some (str "Invalid authorization header format") }
    | some (u, p) =>
      if u = creds.username ∧ p = creds.password then
        { success := true, username := some u, error := none }
      else
        { success := false, username := none,
          error := some (str "Invalid credentials") }

/- ===================== HTTP response model ===================== -/

inductive HttpBody where
  | empty
  | jsonError (msg : Str)
  | health
  | xml (s : Str)
  | multistatus (entries : List DavEntry)
  | fileStream (id : Str)
  | text (s : Str)
deriving DecidableEq

structure HttpResponse where
  status : Nat
  headers : List (Str × Str)
  body : HttpBody
deriving DecidableEq

/-- The CORS headers set at the top of `handleRequest` on every response. -/
def corsHeaders : List (Str × Str) :=
  [(str "Access-Control-Allow-Origin", str "*"),
   (str "Access-Control-Allow-Methods",
    str "GET, POST, PUT, DELETE, OPTIONS, PROPFIND, COPY, MOVE, MKCOL, LOCK, UNLOCK, PROPPATCH"),
   (str "Access-Control-Allow-Headers",
    str "Content-Type, Authorization, Depth, Destination, Overwrite")]

/-- `server.ts` `sendResponse` (JSON bodies in the model always carry an
`error` message; the only non-error JSON responses are `/health`, modelled
separately). -/
def sendResponse (status : Nat) (msg : Str) : HttpResponse :=
  { status := status,
    headers := corsHeaders ++ [(str "Content-Type", str "application/json")],
    body := .jsonError msg }

/-- `server.ts` `sendXMLResponse`. -/
def sendXMLResponse (status : Nat) (body : HttpBody) : HttpResponse :=
  { status := status,
    headers := corsHeaders ++ [(str "Content-Type", str "application/xml; charset=utf-8")],
    body := body }

/-- The route handlers' own `res.writeHead(status, {content-type, cors})`
responses (one more explicit CORS header than `sendXMLResponse`). -/
def routeXMLResponse (status : Nat) (body : HttpBody) : HttpResponse :=
  { status := status,
    headers := corsHeaders ++
      [(str "Content-Type", str "application/xml; charset=utf-8"),
       (str "Access-Control-Allow-Origin", str "*")],
    body := body }

def notFoundErrorXML : Str :=
  str "<?xml version=\"1.0\" encoding=\"utf-8\"?>\n<D:error xmlns:D=\"DAV:\"><D:response><D:status>HTTP/1.1 404 Not Found</D:status></D:response></D:error>"

def notFoundErrorXMLHierarchy : Str :=
  str "<?xml version=\"1.0\" encoding=\"utf-8\"?><D:error xmlns:D=\"DAV:\"><D:response><D:status>HTTP/1.1 404 Not Found</D:status></D:response></D:error>"

/-- The tags route's 404 XML literal (the source writes `'\\n'` inside a
single-quoted string, so the body really contains a backslash and an `n`). -/
def notFoundErrorXMLTags : Str :=
  str "<?xml version=\"1.0\" encoding=\"utf-8\"?>\\n<D:error xmlns:D=\"DAV:\"><D:response><D:status>HTTP/1.1 404 Not Found</D:status></D:response></D:error>"

/-- `server.ts` `sendReadOnlyError`: the WebDAV-XML body naming the rejected
method, with status 403. -/
def readOnlyErrorXML (method : Str) : Str :=
  str "<?xml version=\"1.0\" encoding=\"utf-8\"?>\n<D:error xmlns:D=\"DAV:\">\n  <D:response>\n    <D:status>HTTP/1.1 403 Forbidden</D:status>\n    <D:responsedescription>Read-only WebDAV server. " ++
  method ++ str " operations are not allowed.</D:responsedescription>\n  </D:response>\n</D:error>"

def sendReadOnlyError (method : Str) : HttpResponse :=
  { status := 403,
    headers := corsHeaders ++
      [(str "Content-Type", str "application/xml; charset=utf-8"),
       (str "Access-Control-Allow-Origin", str "*")],
    body := .xml (readOnlyErrorXML method) }

def methodNotAllowedXML (pathname : Str) : Str :=
  str "<?xml version=\"1.0\" encoding=\"utf-8\"?>\n<D:error xmlns:D=\"DAV:\">\n  <D:response>\n    <D:href>" ++
  encodeURIChars pathname ++
  str "</D:href>\n    <D:status>HTTP/1.1 405 Method Not Allowed</D:status>\n    <D:responsedescription>GET method is not allowed on collections. Use PROPFIND to browse folder contents.</D:responsedescription>\n  </D:response>\n</D:error>"

/-- `server.ts` `sendMethodNotAllowedForCollection`: 405 with an `Allow`
header listing `OPTIONS, PROPFIND, HEAD`. -/
def sendMethodNotAllowedForCollection (pathname : Str) : HttpResponse :=
  { status := 405,
    headers := corsHeaders ++
      [(str "Content-Type", str "application/xml; charset=utf-8"),
       (str "Allow", str "OPTIONS, PROPFIND, HEAD"),
       (str "Access-Control-Allow-Origin", str "*")],
    body := .xml (methodNotAllowedXML pathname) }

/-- `server.ts` `serveFileContent`: content headers are set first; the bytes
are streamed when a backing path exists on disk, otherwise the 404 fallback
(with the same headers already set) is sent. -/
def serveFileContent (st : EagleStore) (file : EagleWebDAVFile) : HttpResponse :=
  let filename := if file.name = [] then str "download" else file.name
  let headers := corsHeaders ++
    [(str "Content-Type", mimeOrDefault file.mimeType),
     (str "Content-Length", natToStr file.size),
     (str "Content-Disposition",
      str "inline; filename*=UTF-8''" ++ encodeURIComponentChars filename)]
  if file.path ≠ [] ∧ st.fileExists file.path then
    { status := 200, headers := headers, body := .fileStream file.id }
  else
    { status := 404, headers := headers, body := .text (str "File not found") }

/- ===================== route handlers ===================== -/

/-- The filename-matching loop shared verbatim by the folders, allItems and
tags file handlers: for each file child in order, first the exact comparison
of the extension-qualified and bare names, then the case-insensitive one. -/
def findTargetFile : List WebDAVNode → Str → Option EagleWebDAVFile
  | [], _ => none
  | .dir _ _ _ _ :: rest, filename => findTargetFile rest filename
  | .file it :: rest, filename =>
    if nodeFullFileName it = filename ∨ it.name = filename then some it
    else if strToLower (nodeFullFileName it) = strToLower filename ∨
        strToLower it.name = strToLower filename then some it
    else findTargetFile rest filename

/-- `routes/folders/index.ts` `handleFolderFileRequest`. -/
def handleFolderFileRequest (st : EagleStore) (folderName filename : Str) :
    HttpResponse :=
  match getFolderByName st folderName with
  | none => sendResponse 404 (str "Folder not found")
  | some folder =>
    if folder.children.isEmpty then sendResponse 404 (str "File not found")
    else
      match findTargetFile folder.children filename with
      | none => sendResponse 404 (str "File not found")
      | some targetFile =>
        match getFileById st targetFile.id with
        | none => sendResponse 404 (str "File not found")
        | some file => serveFileContent st file

/-- `routes/folders/index.ts` `handleFolderGET`.  A `decodeURIComponent`
failure throws out of the handler and is answered 500 by `handleRequest`'s
catch; the model collapses that to the 500 response in place. -/
def handleFolderGET (st : EagleStore) (pathname : Str) : HttpResponse :=
  let pathParts := splitOnChar '/' (pathname.drop 9)
  if pathname = str "/folders" ∨ pathname = str "/folders/" then
    sendResponse 405 (str "Method not allowed on collections")
  else if pathParts.length = 1 ∧ pathParts.getD 0 [] ≠ [] then
    sendResponse 405 (str "Method not allowed on collections")
  else if 2 ≤ pathParts.length ∧ pathParts.getD 0 [] ≠ [] ∧ pathParts.getD 1 [] ≠ [] then
    match decodeURIComponentChars (pathParts.getD 0 []) with
    | none => sendResponse 500 (str "Internal server error")
    | some folderName =>
      let filename := List.intercalate [ '/' ] (pathParts.drop 1)
      handleFolderFileRequest st folderName filename
  else sendResponse 404 (str "Not found")

/-- `routes/folders/index.ts` `handleFolderPROPFIND`. -/
def handleFolderPROPFIND (st : EagleStore) (pathname : Str) (depthHeader : Option Str) :
    HttpResponse :=
  let depth := depthHeader.getD (str "1")
  if pathname = str "/folders" ∨ pathname = str "/folders/" then
    routeXMLResponse 207 (.multistatus
      (generateFolderListXML (str "/folders") (getAllEagleFolders st) (depth = str "0")))
  else if (str "/folders/").isPrefixOf pathname then
    match decodeURIComponentChars (dropOneTrailingSlash (pathname.drop 9)) with
    | none => sendResponse 500 (str "Internal server error")
    | some folderName =>
      if folderName = [] then
        routeXMLResponse 207 (.multistatus
          (generateFolderListXML (str "/folders") (getAllEagleFolders st) (depth = str "0")))
      else
        match getFolderByName st folderName with
        | none => sendXMLResponse 404 (.xml notFoundErrorXML)
        | some folder =>
          routeXMLResponse 207 (.multistatus
            (generateFolderContentXML pathname folder.children (depth = str "0")
              (some folder.name)))
  else sendXMLResponse 404 (.xml notFoundErrorXML)

/-- `routes/allItems/index.ts` `handleAllItemsFileRequest` (the item list
holds files only, wrapped as nodes for the shared matching loop). -/
def handleAllItemsFileRequest (st : EagleStore) (filename : Str) : HttpResponse :=
  let items := getAllEagleItems st
  if items = [] then sendResponse 404 (str "File not found")
  else
    match findTargetFile (items.map WebDAVNode.file) filename with
    | none => sendResponse 404 (str "File not found")
    | some targetFile =>
      match getFileById st targetFile.id with
      | none => sendResponse 404 (str "File not found")
      | some file => serveFileContent st file

/-- `routes/allItems/index.ts` `handleAllItemsGET`. -/
def handleAllItemsGET (st : EagleStore) (pathname : Str) : HttpResponse :=
  if pathname = str "/allItems" ∨ pathname = str "/allItems/" then
    sendResponse 405 (str "Method not allowed on collections")
  else if (str "/allItems/").isPrefixOf pathname then
    match decodeURIComponentChars (pathname.drop 10) with
    | none => sendResponse 500 (str "Internal server error")
    | some filename => handleAllItemsFileRequest st filename
  else sendResponse 404 (str "Not found")

/-- `routes/allItems/index.ts` `handleAllItemsPROPFIND` (the single-file
search uses the same four-way name comparison as the GET path). -/
def handleAllItemsPROPFIND (st : EagleStore) (pathname : Str)
    (depthHeader : Option Str) : HttpResponse :=
  let depth := depthHeader.getD (str "1")
  if pathname = str "/allItems" ∨ pathname = str "/allItems/" then
    routeXMLResponse 207 (.multistatus
      (generateAllItemsListXML (str "/allItems") (getAllEagleItems st) (depth = str "0")))
  else if (str "/allItems/").isPrefixOf pathname then
    match decodeURIComponentChars (pathname.drop 10) with
    | none => sendResponse 500 (str "Internal server error")
    | some filename =>
      match findTargetFile ((getAllEagleItems st).map WebDAVNode.file) filename with
      | none => sendXMLResponse 404 (.xml notFoundErrorXML)
      | some targetFile =>
        match getFileById st targetFile.id with
        | none => sendXMLResponse 404 (.xml notFoundErrorXML)
        | some file =>
          sendXMLResponse 207 (.multistatus (generateSingleFilePROPFIND pathname file))
  else sendXMLResponse 404 (.xml notFoundErrorXML)

/-- `routes/files/index.ts` `handleFilesGET`. -/
def handleFilesGET (st : EagleStore) (pathname : Str) : HttpResponse :=
  if (str "/files/").isPrefixOf pathname then
    let pathParts := splitOnChar '/' (dropOneTrailingSlash (pathname.drop 7))
    let id := pathParts.getD 0 []
    match getFileById st id with
    | none => sendResponse 404 (str "File not found")
    | some file => serveFileContent st file
  else sendResponse 404 (str "Not found")

/-- `routes/files/index.ts` `handleFilesPROPFIND`. -/
def handleFilesPROPFIND (st : EagleStore) (pathname : Str) : HttpResponse :=
  if (str "/files/").isPrefixOf pathname then
    let pathParts := splitOnChar '/' (dropOneTrailingSlash (pathname.drop 7))
    let id := pathParts.getD 0 []
    match getFileById st id with
    | none => sendXMLResponse 404 (.xml notFoundErrorXML)
    | some file =>
      sendXMLResponse 207 (.multistatus (generateSingleFilePROPFIND pathname file))
  else sendXMLResponse 404 (.xml notFoundErrorXML)

/-- `routes/files/index.ts` `handleFilesHEAD` (bare `writeHead` responses
carry only the CORS headers set earlier). -/
def handleFilesHEAD (st : EagleStore) (pathname : Str) : HttpResponse :=
  if (str "/files/").isPrefixOf pathname then
    let pathParts := splitOnChar '/' (dropOneTrailingSlash (pathname.drop 7))
    let id := pathParts.getD 0 []
    match getFileById st id with
    | none => { status := 404, headers := corsHeaders, body := .empty }
    | some file =>
      { status := 200,
        headers := corsHeaders ++
          [(str "Content-Type", mimeOrDefault file.mimeType),
           (str "Content-Length", natToStr file.size)],
        body := .empty }
  else { status := 404, headers := corsHeaders, body := .empty }

/-- The file-search loop of `handleHierarchyFileRequest` (hierarchy matches
only the extension-qualified filename: exact, then case-insensitive). -/
def hierarchyFileSearch (st : EagleStore) : List WebDAVNode → Str → HttpResponse
  | [], _ => sendResponse 404 (str "File not found")
  | .dir _ _ _ _ :: rest, filename => hierarchyFileSearch st rest filename
  | .file it :: rest, filename =>
    if nodeFullFileName it = filename then
      match getFileById st it.id with
      | some file => serveFileContent st file
      | none => sendResponse 404 (str "File content not found")
    else if strToLower (nodeFullFileName it) = strToLower filename then
      match getFileById st it.id with
      | some file => serveFileContent st file
      | none => sendResponse 404 (str "File content not found")
    else hierarchyFileSearch st rest filename

/-- `routes/hierarchy/index.ts` `handleHierarchyFileRequest`. -/
def handleHierarchyFileRequest (st : EagleStore) (folderPath filename : Str) :
    HttpResponse :=
  match getFolderByPath st folderPath with
  | none => sendResponse 404 (str "Folder not found")
  | some folder =>
    if folder.children.isEmpty then sendResponse 404 (str "File not found")
    else hierarchyFileSearch st folder.children filename

/-- `routes/hierarchy/index.ts` `handleIndexGET`. -/
def handleIndexGET (st : EagleStore) (pathname : Str) : HttpResponse :=
  if pathname = str "/hierarchy" ∨ pathname = str "/hierarchy/" then
    sendResponse 405 (str "Method not allowed on collections")
  else if (str "/hierarchy/").isPrefixOf pathname then
    let hierarchyPath := normalizePath (dropOneTrailingSlash (pathname.drop 11))
    let pathParts := (splitOnChar '/' hierarchyPath).filter (· ≠ [])
    if pathParts.length = 1 then
      sendResponse 405 (str "Method not allowed on collections")
    else if 2 ≤ pathParts.length then
      let folderParts := pathParts.dropLast
      let filename := (pathParts.getLast?).getD []
      let folderPath := '/' :: List.intercalate [ '/' ] folderParts
      handleHierarchyFileRequest st folderPath filename
    else sendResponse 404 (str "Not found")
  else sendResponse 404 (str "Not found")

/-- `routes/hierarchy/index.ts` `handleIndexPROPFIND`. -/
def handleIndexPROPFIND (st : EagleStore) (pathname : Str)
    (depthHeader : Option Str) : HttpResponse :=
  let depth := depthHeader.getD (str "infinity")
  let isDepthZero := depth = str "0"
  if pathname = str "/hierarchy" ∨ pathname = str "/hierarchy/" then
    routeXMLResponse 207 (.multistatus
      (generateIndexContentXML pathname (getHierarchicalFolders st) isDepthZero
        (str "Hierarchy")))
  else
    let hierarchyPath := normalizePath (dropOneTrailingSlash (pathname.drop 11))
    let folderPath := '/' :: hierarchyPath
    match getFolderByPath st folderPath with
    | none => routeXMLResponse 404 (.xml notFoundErrorXMLHierarchy)
    | some folder =>
      let basePath := str "/hierarchy/" ++ hierarchyPath
      routeXMLResponse 207 (.multistatus
        (generateIndexContentXML basePath folder.children isDepthZero folder.name))

/-- `routes/tags/index.ts` `handleTagFileRequest`. -/
def handleTagFileRequest (st : EagleStore) (tagName filename : Str) : HttpResponse :=
  let items := getItemsByTag st tagName
  if items = [] then sendResponse 404 (str "File not found")
  else
    match findTargetFile (items.map WebDAVNode.file) filename with
    | none => sendResponse 404 (str "File not found")
    | some targetFile =>
      match getFileById st targetFile.id with
      | none => sendResponse 404 (str "File not found")
      | some file => serveFileContent st file

/-- `routes/tags/index.ts` `handleTagsGET`. -/
def handleTagsGET (st : EagleStore) (pathname : Str) : HttpResponse :=
  if pathname = str "/tags" ∨ pathname = str "/tags/" then
    sendResponse 405 (str "Method not allowed on collections")
  else if (str "/tags/").isPrefixOf pathname then
    let pathParts := (splitOnChar '/' (pathname.drop 6)).filter (· ≠ [])
    if pathParts.length = 1 then
      sendResponse 405 (str "Method not allowed on collections")
    else if 2 ≤ pathParts.length then
      match decodeURIComponentChars (pathParts.getD 0 []) with
      | none => sendResponse 500 (str "Internal server error")
      | some tagName =>
        let filename := List.intercalate [ '/' ] (pathParts.drop 1)
        handleTagFileRequest st tagName filename
    else sendResponse 404 (str "Not found")
  else sendResponse 404 (str "Not found")

/-- `routes/tags/index.ts` `handleTagsPROPFIND` (its `if (!items)` guard can
never fire because `getItemsByTag` catches failures and returns `[]`). -/
def handleTagsPROPFIND (st : EagleStore) (pathname : Str)
    (depthHeader : Option Str) : HttpResponse :=
  let depth := depthHeader.getD (str "1")
  if pathname = str "/tags" ∨ pathname = str "/tags/" then
    routeXMLResponse 207 (.multistatus
      (generateTagsListXML (str "/tags") (getAllTagsWithCounts st) (depth = str "0") none))
  else if (str "/tags/").isPrefixOf pathname then
    match decodeURIComponentChars (dropOneTrailingSlash (pathname.drop 6)) with
    | none => sendResponse 500 (str "Internal server error")
    | some tagName =>
      if tagName = [] then
        routeXMLResponse 207 (.multistatus
          (generateTagsListXML (str "/tags") (getAllTagsWithCounts st) (depth = str "0") none))
      else
        let items := getItemsByTag st tagName
        routeXMLResponse 207 (.multistatus
          (generateTagsListXML (str "/tags/" ++ tagName) (items.map WebDAVNode.file)
            (depth = str "0") (some tagName)))
  else routeXMLResponse 404 (.xml notFoundErrorXMLTags)

/- ===================== server.ts dispatcher ===================== -/

structure Request where
  method : Str
  url : Str
  authHeader : Option Str
  depth : Option Str

def writeMethods : List Str :=
  [str "COPY", str "MOVE", str "MKCOL", str "DELETE", str "PUT",
   str "LOCK", str "UNLOCK", str "PROPPATCH"]

/-- `url.parse(req.url).pathname || '/'` (queries stripped; fragments do not
reach a server in practice and are not modelled). -/
def parsePathname (url : Str) : Str :=
  let p := ((splitOnChar '?' url).headD [])
  if p = [] then str "/" else p

/-- `sendAuthChallenge`: the single fixed 401 response used for every
authentication failure. -/
def authChallengeResponse : HttpResponse :=
  { status := 401,
    headers := corsHeaders ++
      [(str "WWW-Authenticate", str "Basic realm=\"Eagle WebDAV Server\""),
       (str "Content-Type", str "application/json")],
    body := .jsonError (str "Authentication required") }

/-- `server.ts` `handleGetRequest`. -/
def handleGetRequest (st : EagleStore) (pathname : Str) : HttpResponse :=
  if pathname = str "/" then
    sendMethodNotAllowedForCollection pathname
  else if pathname = str "/allItems" ∨ pathname = str "/allItems/" ∨
      (str "/allItems/").isPrefixOf pathname then
    handleAllItemsGET st pathname
  else if pathname = str "/folders" ∨ pathname = str "/folders/" ∨
      (str "/folders/").isPrefixOf pathname then
    handleFolderGET st pathname
  else if pathname = str "/hierarchy" ∨ pathname = str "/hierarchy/" ∨
      (str "/hierarchy/").isPrefixOf pathname then
    handleIndexGET st pathname
  else if pathname = str "/tags" ∨ pathname = str "/tags/" ∨
      (str "/tags/").isPrefixOf pathname then
    handleTagsGET st pathname
  else if (str "/files/").isPrefixOf pathname then
    handleFilesGET st pathname
  else if pathname = str "/health" then
    { status := 200,
      headers := corsHeaders ++ [(str "Content-Type", str "application/json")],
      body := .health }
  else sendResponse 404 (str "Not found")

/-- `server.ts` `handlePropfindRequest` (the request body is read but never
used; the depth header is re-read with its own default inside each route
handler, exactly as in the source). -/
def handlePropfindRequest (st : EagleStore) (pathname : Str)
    (depthHeader : Option Str) : HttpResponse :=
  let isDepthZero := (depthHeader.getD (str "infinity")) = str "0"
  if pathname = str "/" then
    sendXMLResponse 207 (.multistatus
      (generateFolderContentXML (str "/") getRootContainer isDepthZero none))
  else if pathname = str "/allItems" ∨ pathname = str "/allItems/" ∨
      (str "/allItems/").isPrefixOf pathname then
    handleAllItemsPROPFIND st pathname depthHeader
  else if pathname = str "/folders" ∨ pathname = str "/folders/" then
    handleFolderPROPFIND st pathname depthHeader
  else if pathname = str "/hierarchy" ∨ pathname = str "/hierarchy/" ∨
      (str "/hierarchy/").isPrefixOf pathname then
    handleIndexPROPFIND st pathname depthHeader
  else if pathname = str "/tags" ∨ pathname = str "/tags/" ∨
      (str "/tags/").isPrefixOf pathname then
    handleTagsPROPFIND st pathname depthHeader
  else if (str "/folders/").isPrefixOf pathname then
    handleFolderPROPFIND st pathname depthHeader
  else if (str "/files/").isPrefixOf pathname then
    handleFilesPROPFIND st pathname
  else sendResponse 404 (str "Not found")

/-- `server.ts` `handleHeadRequest`: only `/files/` paths are resolved; every
other path is answered 200 unconditionally. -/
def handleHeadRequest (st : EagleStore) (pathname : Str) : HttpResponse :=
  if (str "/files/").isPrefixOf pathname then handleFilesHEAD st pathname
  else { status := 200, headers := corsHeaders, body := .empty }

/-- `server.ts` `handleRequest`: CORS preflight short-circuit, then Basic
authentication, then dispatch on the method; write methods are rejected
read-only, unknown methods 405.  The model is pure: no branch mutates the
store, so no write is ever performed. -/
def handleRequest (st : EagleStore) (req : Request) : HttpResponse :=
  if req.method = str "OPTIONS" then
    { status := 200, headers := corsHeaders, body := .empty }
  else if (authenticateRequest st.creds req.authHeader).success = false then
    authChallengeResponse
  else
    let pathname := parsePathname req.url
    if req.method = str "GET" then handleGetRequest st pathname
    else if req.method = str "PROPFIND" then
      handlePropfindRequest st pathname req.depth
    else if req.method = str "HEAD" then handleHeadRequest st pathname
    else if writeMethods.contains req.method then sendReadOnlyError req.method
    else sendResponse 405 (str "Method not allowed")

/- ===================== auxiliary definitions for the theorems ===================== -/

/-- The first character of `p` is neither a slash nor JavaScript whitespace
(vacuously true of the empty string). -/
def headOkC2 (p : Str) : Bool :=
  match p.head? with
  | none => true
  | some c => !(c == '/' || isJsWhitespace c)

/-- The last character of `p` is neither a slash nor JavaScript whitespace. -/
def lastOkC2 (p : Str) : Bool :=
  match p.getLast? with
  | none => true
  | some c => !(c == '/' || isJsWhitespace c)

/-- The flat disjunction behind the two sequential checks of
`findTargetFile`: the extension-qualified or bare name matches the requested
filename exactly or case-insensitively. -/
def nameMatches (it : EagleWebDAVFile) (filename : Str) : Bool :=
  nodeFullFileName it = filename || it.name = filename ||
  strToLower (nodeFullFileName it) = strToLower filename ||
  strToLower it.name = strToLower filename

/-- The single self element of an empty `/allItems` listing. -/
def allItemsSelfEntry : DavEntry :=
  { href := generateHrefPath (str "/allItems"), isCollection := true,
    displayName := escapeXML (str "All Items"),
    contentLength := none, contentType := none }

/-- The single self element of an empty `/folders` listing. -/
def foldersSelfEntry : DavEntry :=
  { href := str "/folders", isCollection := true, displayName := str "Folders",
    contentLength := none, contentType := none }

/- Concrete fixtures used by witnesses and counterexamples. -/

def sampleCreds : ServerCredentials :=
  { username := str "host", password := str "pw" }

/-- A Basic header whose base64 payload decodes to `host:pw`. -/
def validAuthHeader : Str := str "Basic aG9zdDpwdw=="

def emptyStore : EagleStore :=
  { folders := .ok .nil, folderById := fun _ => .ok none,
    folderItems := fun _ => .ok [], itemById := fun _ => .ok none,
    countAll := .ok 0, allItems := .ok [], tags := .ok [],
    tagItems := fun _ => .ok [], fileExists := fun _ => false,
    creds := sampleCreds }

/-- A backing tree with a folder `X` containing another folder also named
`X` (same name in two branches). -/
def dupFolderForest : EagleForest :=
  .cons (.node (str "f1") (str "X")
    (.cons (.node (str "f2") (str "X") .nil) .nil)) .nil

def dupFolderStore : EagleStore := { emptyStore with folders := .ok dupFolderForest }

def sunsetItem : EagleApiItem :=
  { id := str "i1", name := str "photo", ext := str "jpg", size := 1000,
    filePath := str "/lib/photo.jpg" }

/-- A store with one tag `sunset` carrying one item. -/
def tagStore : EagleStore :=
  { emptyStore with
    tags := .ok [{ id := str "t1", name := str "sunset" }],
    tagItems := fun n => if n = str "sunset" then .ok [sunsetItem] else .ok [],
    itemById := fun i => if i = str "i1" then .ok (some sunsetItem) else .ok none }

/-- A store whose item count exceeds the 5000 threshold. -/
def bigStore : EagleStore := { emptyStore with countAll := .ok 6000 }

/-- A store whose backing item count call throws. -/
def failStore : EagleStore := { emptyStore with countAll := .error (str "io failure") }

/- ===================== theorems: the percent-encoding layer ===================== -/

theorem decode_cons_ne {c : Char} (rest : Str) (hc : c ≠ '%') :
    decodeURIComponentChars (c :: rest) =
      (decodeURIComponentChars rest).map (fun d => c :: d) := by
  rw [decodeURIComponentChars.eq_def]
  simp [hc]

theorem decode_pct_hex {h1 h2 : Char} {v1 v2 : Nat} (rest2 : Str)
    (hv1 : hexVal h1 = some v1) (hv2 : hexVal h2 = some v2) :
    decodeURIComponentChars ('%' :: h1 :: h2 :: rest2) =
      (decodeURIComponentChars rest2).map (fun d => Char.ofNat (16 * v1 + v2) :: d) := by
  rw [decodeURIComponentChars.eq_def]
  simp [hv1, hv2]

theorem decode_le_aux (n : Nat) : ∀ s : Str, s.length ≤ n →
    ∀ d, decodeURIComponentChars s = some d →
      d.length ≤ s.length ∧ ('%' ∈ s → d.length < s.length) := by
  induction n with
  | zero =>
    intro s hs d h
    match s with
    | [] =>
      simp only [decodeURIComponentChars, Option.some.injEq] at h
      subst h
      simp
  | succ n ih =>
    intro s hs d h
    match s with
    | [] =>
      simp only [decodeURIComponentChars, Option.some.injEq] at h
      subst h
      simp
    | c :: rest =>
      by_cases hc : c = '%'
      · subst hc
        match rest with
        | h1 :: h2 :: rest2 =>
          cases hv1 : hexVal h1 with
          | none =>
            rw [decodeURIComponentChars.eq_def] at h
            simp [hv1] at h
          | some v1 =>
            cases hv2 : hexVal h2 with
            | none =>
              rw [decodeURIComponentChars.eq_def] at h
              simp [hv1, hv2] at h
            | some v2 =>
              rw [decode_pct_hex rest2 hv1 hv2] at h
              simp only [Option.map_eq_some'] at h
              obtain ⟨d', hd', rfl⟩ := h
              have hrec := ih rest2 (by simp at hs ⊢; omega) d' hd'
              refine ⟨by simp; omega, fun _ => by simp; omega⟩
        | [] =>
          rw [decodeURIComponentChars.eq_def] at h
          simp at h
        | [h1] =>
          rw [decodeURIComponentChars.eq_def] at h
          simp at h
      · rw [decode_cons_ne rest hc] at h
        simp only [Option.map_eq_some'] at h
        obtain ⟨d', hd', rfl⟩ := h
        have hrec := ih rest (by simp at hs ⊢; omega) d' hd'
        refine ⟨by simp; omega, fun hmem => ?_⟩
        have hmem' : '%' ∈ rest := by
          rcases List.mem_cons.mp hmem with h' | h'
          · exact absurd h'.symm hc
          · exact h'
        have := hrec.2 hmem'
        simp
        omega

theorem decode_length_le {s d : Str} (h : decodeURIComponentChars s = some d) :
    d.length ≤ s.length :=
  (decode_le_aux s.length s le_rfl d h).1

theorem decode_length_lt {s d : Str} (h : decodeURIComponentChars s = some d)
    (hp : '%' ∈ s) : d.length < s.length :=
  (decode_le_aux s.length s le_rfl d h).2 hp

theorem decode_no_percent {s : Str} (h : '%' ∉ s) :
    decodeURIComponentChars s = some s := by
  induction s with
  | nil => rfl
  | cons c rest ih =>
    have hc : c ≠ '%' := fun hc => h (hc ▸ List.mem_cons_self c rest)
    have hr : '%' ∉ rest := fun hr => h (List.mem_cons_of_mem c hr)
    rw [decode_cons_ne rest hc, ih hr, Option.map_some']

theorem hexVal_hexDigitChar (n : Nat) (h : n < 16) : hexVal (hexDigitChar n) = some n := by
  interval_cases n <;> decide

/-- Decoding inverts one application of the `encodeURI` model, for strings of
characters with code points below 256 (see the module header). -/
theorem decode_encodeURI (s : Str) (hb : ∀ c ∈ s, c.toNat < 256) :
    decodeURIComponentChars (encodeURIChars s) = some s := by
  induction s with
  | nil => rfl
  | cons c rest ih =>
    have hbc : c.toNat < 256 := hb c (List.mem_cons_self c rest)
    have hbr : ∀ c' ∈ rest, c'.toNat < 256 := fun c' hc' => hb c' (List.mem_cons_of_mem c hc')
    rw [encodeURIChars]
    by_cases hu : isUnescapedInEncodeURI c
    · rw [if_pos hu]
      have hc : c ≠ '%' := by
        intro hc
        rw [hc] at hu
        exact absurd hu (by decide)
      simp only [List.singleton_append]
      rw [decode_cons_ne _ hc, ih hbr, Option.map_some']
    · rw [if_neg hu]
      simp only [percentEncodeChar, List.cons_append, List.nil_append]
      rw [decode_pct_hex _ (hexVal_hexDigitChar _ (by omega)) (hexVal_hexDigitChar _ (by omega)),
        ih hbr, Option.map_some']
      have : 16 * (c.toNat / 16 % 16) + c.toNat % 16 = c.toNat := by omega
      rw [this, Char.ofNat_toNat]

/-- A decode fixed point containing `%` can only be a decode failure: a
successful decode of a string containing `%` is strictly shorter. -/
theorem canonical_percent_decode_none {p : Str} (hc : isCanonicalStr p = true)
    (hp : '%' ∈ p) : decodeURIComponentChars p = none := by
  unfold isCanonicalStr at hc
  cases h : decodeURIComponentChars p with
  | none => rfl
  | some d =>
    rw [h] at hc
    simp at hc
    subst hc
    exact absurd (decode_length_lt h hp) (by omega)

theorem canonical_not_alreadyEncoded {p : Str} (hc : isCanonicalStr p = true) :
    isAlreadyEncoded p = false := by
  unfold isAlreadyEncoded
  cases hp : p.contains '%' with
  | false => rfl
  | true =>
    rw [canonical_percent_decode_none hc (by simpa using hp)]
    rfl

theorem recursiveDecodeAux_canonical {p : Str} (fuel : Nat)
    (hc : isCanonicalStr p = true) : recursiveDecodeAux fuel p = p := by
  cases fuel with
  | zero => rfl
  | succ n =>
    unfold recursiveDecodeAux
    cases hp : p.contains '%' with
    | false => rfl
    | true =>
      rw [canonical_percent_decode_none hc (by simpa using hp)]
      rfl

theorem recursiveDecode_canonical {p : Str} (hc : isCanonicalStr p = true) :
    recursiveDecodeURI p = p :=
  recursiveDecodeAux_canonical _ hc

theorem dropWhile_head_not {p : Char → Bool} {s : Str}
    (h : ∀ c, s.head? = some c → p c = false) : s.dropWhile p = s := by
  cases s with
  | nil => rfl
  | cons c rest =>
    rw [List.dropWhile_cons, h c rfl]
    simp

theorem dropWhileEnd_last_not {p : Char → Bool} {s : Str}
    (h : ∀ c, s.getLast? = some c → p c = false) : dropWhileEnd p s = s := by
  unfold dropWhileEnd
  rw [dropWhile_head_not, List.reverse_reverse]
  intro c hc
  exact h c (by rwa [← List.head?_reverse])

/-- `normalizePath` leaves a decode fixed point with no enclosing slash or
whitespace unchanged. -/
theorem normalizePath_fixed {p : Str} (hc : isCanonicalStr p = true)
    (hh : headOkC2 p = true) (hl : lastOkC2 p = true) : normalizePath p = p := by
  unfold normalizePath stripEnclosingSlashes trimJs
  have hhead : ∀ c, p.head? = some c → (c == '/' || isJsWhitespace c) = false := by
    intro c h
    unfold headOkC2 at hh
    rw [h] at hh
    simpa using hh
  have hlast : ∀ c, p.getLast? = some c → (c == '/' || isJsWhitespace c) = false := by
    intro c h
    unfold lastOkC2 at hl
    rw [h] at hl
    simpa using hl
  have e1 : p.dropWhile (· == '/') = p :=
    dropWhile_head_not (fun c h => by
      have := hhead c h
      simp only [Bool.or_eq_false_iff] at this
      exact this.1)
  rw [e1]
  have e2 : dropWhileEnd (· == '/') p = p :=
    dropWhileEnd_last_not (fun c h => by
      have := hlast c h
      simp only [Bool.or_eq_false_iff] at this
      exact this.1)
  rw [e2]
  have e3 : p.dropWhile isJsWhitespace = p :=
    dropWhile_head_not (fun c h => by
      have := hhead c h
      simp only [Bool.or_eq_false_iff] at this
      exact this.2)
  rw [e3]
  have e4 : dropWhileEnd isJsWhitespace p = p :=
    dropWhileEnd_last_not (fun c h => by
      have := hlast c h
      simp only [Bool.or_eq_false_iff] at this
      exact this.2)
  rw [e4]
  exact recursiveDecode_canonical hc

/- ===================== C2 ===================== -/

/--
C2, counterexample.  The claim asserts `normalize(decode(toHref(p))) = p` for
every canonical path `p` (a slash-delimited sequence of fully percent-decoded
segments).  The one-segment path `" a"` (a name with a leading space) is fully
percent-decoded — it is even the output of `normalizePath` on the incoming
path `"%20a"` — yet the round trip returns `"a"`: `generateHrefPath` encodes
it to `"%20a"`, one decode restores `" a"`, and `normalizePath` then trims the
leading space away.
-/
theorem c2_roundtrip_counterexample :
    isCanonicalStr (str " a") = true ∧
    normalizePath (str "%20a") = str " a" ∧
    generateHrefPath (str " a") = str "%20a" ∧
    (decodeURIComponentChars (generateHrefPath (str " a"))).map normalizePath
      = some (str "a") ∧
    str "a" ≠ str " a" := by
  refine ⟨by decide, by decide, by decide, by decide, by decide⟩

/--
C2, amended.  For every canonical path `p` — a fixed point of percent-decoding
— made of characters with code points below 256, whose first and last
characters are neither `/` nor whitespace, encoding with `generateHrefPath`,
percent-decoding once and normalizing with `normalizePath` yields `p` again.
(The head/last restriction is forced by the counterexample: `normalizePath`
strips enclosing slashes and whitespace, so a canonical path carrying them is
not recovered.)
-/
theorem c2_roundtrip_amended (p : Str) (hc : isCanonicalStr p = true)
    (hb : ∀ c ∈ p, c.toNat < 256) (hh : headOkC2 p = true) (hl : lastOkC2 p = true) :
    (decodeURIComponentChars (generateHrefPath p)).map normalizePath = some p := by
  unfold generateHrefPath
  rw [canonical_not_alreadyEncoded hc]
  simp only [Bool.false_eq_true, if_false]
  rw [decode_encodeURI p hb, Option.map_some', normalizePath_fixed hc hh hl]

/-- C2 witness: the amended round trip at the concrete canonical path
`"folders/demo video"`. -/
theorem c2_roundtrip_witness :
    isCanonicalStr (str "folders/demo video") = true ∧
    headOkC2 (str "folders/demo video") = true ∧
    lastOkC2 (str "folders/demo video") = true ∧
    (decodeURIComponentChars (generateHrefPath (str "folders/demo video"))).map
      normalizePath = some (str "folders/demo video") :=
  ⟨by decide, by decide, by decide,
    c2_roundtrip_amended (str "folders/demo video") (by decide) (by decide)
      (by decide) (by decide)⟩

/- ===================== C1 ===================== -/

/-- Dispatch helper: once authenticated, any method that is none of OPTIONS,
GET, PROPFIND, HEAD and is in the write list is answered by
`sendReadOnlyError`. -/
theorem handleRequest_dispatch_write (st : EagleStore) (req : Request)
    (hopt : req.method ≠ str "OPTIONS") (hget : req.method ≠ str "GET")
    (hprop : req.method ≠ str "PROPFIND") (hhead : req.method ≠ str "HEAD")
    (hw : writeMethods.contains req.method = true)
    (ha : (authenticateRequest st.creds req.authHeader).success = true) :
    handleRequest st req = sendReadOnlyError req.method := by
  unfold handleRequest
  rw [if_neg hopt, if_neg (by simp [ha]), if_neg hget, if_neg hprop, if_neg hhead,
    if_pos hw]

/--
C1.  For every store and every authenticated request whose method is one of
PUT, DELETE, MKCOL, COPY, MOVE, LOCK, UNLOCK, PROPPATCH, the server responds
with `sendReadOnlyError`: status 403 and the WebDAV-XML read-only error body,
regardless of the request path.  The model is a pure function of the store, so
no write is ever performed on any branch.
-/
theorem c1_write_methods_forbidden (st : EagleStore) (req : Request)
    (hm : req.method ∈ writeMethods)
    (ha : (authenticateRequest st.creds req.authHeader).success = true) :
    handleRequest st req = sendReadOnlyError req.method ∧
    (handleRequest st req).status = 403 ∧
    (handleRequest st req).body = .xml (readOnlyErrorXML req.method) := by
  have key : handleRequest st req = sendReadOnlyError req.method := by
    simp only [writeMethods, List.mem_cons, List.not_mem_nil, or_false] at hm
    rcases hm with h | h | h | h | h | h | h | h <;>
      exact handleRequest_dispatch_write st req (by rw [h]; decide) (by rw [h]; decide)
        (by rw [h]; decide) (by rw [h]; decide) (by rw [h]; decide) ha
  exact ⟨key, by rw [key]; rfl, by rw [key]; rfl⟩

/-- C1 witness: a concrete authenticated PUT is answered by the 403 read-only
error. -/
theorem c1_write_methods_forbidden_witness :
    str "PUT" ∈ writeMethods ∧
    (authenticateRequest emptyStore.creds (some validAuthHeader)).success = true ∧
    handleRequest emptyStore
      { method := str "PUT", url := str "/folders/My Folder",
        authHeader := some validAuthHeader, depth := none } =
      sendReadOnlyError (str "PUT") :=
  ⟨by decide, by decide,
    (c1_write_methods_forbidden emptyStore
      { method := str "PUT", url := str "/folders/My Folder",
        authHeader := some validAuthHeader, depth := none }
      (by decide) (by decide)).1⟩

/- ===================== C5 ===================== -/

/--
C5.  For every store and every non-OPTIONS request whose authentication fails
— header absent, not Basic, undecodable, or a wrong credential pair are
exactly the cases in which `authenticateRequest` fails — the response is the
single constant `authChallengeResponse`: status 401 with a
`WWW-Authenticate: Basic` header.  Because the right-hand side is a constant,
the response is identical across all failure causes and independent of the
request path (hence of whether the path exists in the store).
-/
theorem c5_auth_failure_uniform_401 (st : EagleStore) (req : Request)
    (hm : req.method ≠ str "OPTIONS")
    (ha : (authenticateRequest st.creds req.authHeader).success = false) :
    handleRequest st req = authChallengeResponse ∧
    (handleRequest st req).status = 401 ∧
    (str "WWW-Authenticate", str "Basic realm=\"Eagle WebDAV Server\"")
      ∈ (handleRequest st req).headers := by
  have key : handleRequest st req = authChallengeResponse := by
    unfold handleRequest
    rw [if_neg hm, if_pos ha]
  refine ⟨key, by rw [key]; rfl, by rw [key]; decide⟩

/-- C5 witness: a missing header, a non-Basic header, an undecodable Basic
payload and a wrong password all yield the same constant 401 challenge. -/
theorem c5_auth_failure_uniform_401_witness :
    (authenticateRequest emptyStore.creds none).success = false ∧
    (authenticateRequest emptyStore.creds (some (str "Bearer xyz"))).success = false ∧
    (authenticateRequest emptyStore.creds (some (str "Basic !!!!"))).success = false ∧
    (authenticateRequest emptyStore.creds
      (some (str "Basic aG9zdDp3cm9uZw=="))).success = false ∧
    handleRequest emptyStore
      { method := str "GET", url := str "/folders", authHeader := none,
        depth := none } = authChallengeResponse ∧
    handleRequest emptyStore
      { method := str "PROPFIND", url := str "/no-such-path",
        authHeader := some (str "Bearer xyz"), depth := none } = authChallengeResponse ∧
    handleRequest emptyStore
      { method := str "HEAD", url := str "/files/i1",
        authHeader := some (str "Basic aG9zdDp3cm9uZw=="), depth := none } =
      authChallengeResponse :=
  ⟨by decide, by decide, by decide, by decide,
    (c5_auth_failure_uniform_401 emptyStore
      { method := str "GET", url := str "/folders", authHeader := none,
        depth := none } (by decide) (by decide)).1,
    (c5_auth_failure_uniform_401 emptyStore
      { method := str "PROPFIND", url := str "/no-such-path",
        authHeader := some (str "Bearer xyz"), depth := none } (by decide) (by decide)).1,
    (c5_auth_failure_uniform_401 emptyStore
      { method := str "HEAD", url := str "/files/i1",
        authHeader := some (str "Basic aG9zdDp3cm9uZw=="), depth := none }
      (by decide) (by decide)).1⟩

/- ===================== C3 ===================== -/

/--
C3, counterexample.  With a backing tree holding a folder `X` whose subfolder
is also named `X`, the flat `/folders` PROPFIND at depth 1 emits two children
with the identical href `/folders/X`: `getAllEagleFolders` flattens both
folders without deduplication and `generateFolderListXML` builds each child
href from the name alone.  This falsifies the claim that the flat-folder
listing never contains two child entries with the same href.
-/
theorem c3_duplicate_href_counterexample :
    handleRequest dupFolderStore
      { method := str "PROPFIND", url := str "/folders",
        authHeader := some validAuthHeader, depth := some (str "1") } =
      routeXMLResponse 207 (.multistatus
        (generateFolderListXML (str "/folders") (getAllEagleFolders dupFolderStore)
          false)) ∧
    ((generateFolderListXML (str "/folders") (getAllEagleFolders dupFolderStore)
        false).drop 1).map DavEntry.href = [str "/folders/X", str "/folders/X"] ∧
    ¬ (((generateFolderListXML (str "/folders") (getAllEagleFolders dupFolderStore)
        false).drop 1).map DavEntry.href).Nodup :=
  ⟨by decide, by decide, by decide⟩

/--
C3, amended.  The children of a depth-1 `/folders` listing are exactly one
entry `/folders/{name}` per flattened backing folder, in traversal order;
their hrefs are pairwise distinct exactly when the flattened folder names are
pairwise distinct (same-named folders in different branches produce duplicate
hrefs — name collisions are deduplicated nowhere in the listing path).
-/
theorem c3_flat_folder_hrefs_amended (pathname : Str) (folders : List FlatFolder)
    (hnd : (folders.map FlatFolder.name).Nodup) :
    ((generateFolderListXML pathname folders false).drop 1).map DavEntry.href =
      folders.map (fun f => str "/folders/" ++ f.name) ∧
    (((generateFolderListXML pathname folders false).drop 1).map DavEntry.href).Nodup := by
  have he : ((generateFolderListXML pathname folders false).drop 1).map DavEntry.href =
      folders.map (fun f => str "/folders/" ++ f.name) := by
    simp [generateFolderListXML]
  refine ⟨he, ?_⟩
  rw [he]
  have : folders.map (fun f => str "/folders/" ++ f.name) =
      (folders.map FlatFolder.name).map (fun n => str "/folders/" ++ n) := by
    rw [List.map_map]
    rfl
  rw [this]
  exact hnd.map (fun a b h => List.append_cancel_left h)

/-- C3 witness: with distinct folder names the children hrefs are distinct. -/
theorem c3_flat_folder_hrefs_witness :
    (([{ id := str "f1", name := str "A", path := str "/folders/A" },
       { id := str "f2", name := str "B", path := str "/folders/B" }] :
        List FlatFolder).map FlatFolder.name).Nodup ∧
    (((generateFolderListXML (str "/folders")
        [{ id := str "f1", name := str "A", path := str "/folders/A" },
         { id := str "f2", name := str "B", path := str "/folders/B" }] false).drop 1).map
      DavEntry.href).Nodup :=
  ⟨by decide,
    (c3_flat_folder_hrefs_amended (str "/folders")
      [{ id := str "f1", name := str "A", path := str "/folders/A" },
       { id := str "f2", name := str "B", path := str "/folders/B" }]
      (by decide)).2⟩

/- ===================== C4 ===================== -/

/--
C4, counterexample.  A depth-1 PROPFIND on the named tag collection
`/tags/sunset` contains a self entry (the first multistatus element is the
collection `/tags/sunset/` itself) in addition to the children, because the
tags XML generator always pushes the current collection first.  This
falsifies the claim that named subfolders get no self entry at depth 1.
-/
theorem c4_named_collection_self_entry_counterexample :
    handleRequest tagStore
      { method := str "PROPFIND", url := str "/tags/sunset",
        authHeader := some validAuthHeader, depth := some (str "1") } =
      routeXMLResponse 207 (.multistatus
        (generateTagsListXML (str "/tags/sunset")
          ((getItemsByTag tagStore (str "sunset")).map WebDAVNode.file) false
          (some (str "sunset")))) ∧
    (generateTagsListXML (str "/tags/sunset")
        ((getItemsByTag tagStore (str "sunset")).map WebDAVNode.file) false
        (some (str "sunset"))).head? =
      some { href := str "/tags/sunset/", isCollection := true,
             displayName := str "sunset", contentLength := none,
             contentType := some (str "httpd/unix-directory") } ∧
    (generateTagsListXML (str "/tags/sunset")
        ((getItemsByTag tagStore (str "sunset")).map WebDAVNode.file) false
        (some (str "sunset"))).length = 2 :=
  ⟨by decide, by decide, by decide⟩

/--
C4, amended.  The "self only at namespace roots" rule holds for the folders
content generator alone: at depth 1 `generateFolderContentXML` omits the self
entry unless the path is one of `/`, `/folders`, `/allItems`, `/tags`,
`/uncategorized`.  The hierarchy and tags generators instead always emit a
self entry first, also for named subcollections at depth 1.
-/
theorem c4_self_entry_policy_amended :
    (∀ pathname items folderName, contentXMLRootPaths.contains pathname = false →
      generateFolderContentXML pathname items false folderName =
        items.map folderContentChildEntry) ∧
    (∀ pathname items folderName, contentXMLRootPaths.contains pathname = true →
      generateFolderContentXML pathname items false folderName =
        { href := pathname, isCollection := true,
          displayName := folderContentSelfName pathname folderName,
          contentLength := none, contentType := none } ::
          items.map folderContentChildEntry) ∧
    (∀ requestPath items displayName,
      generateIndexContentXML requestPath items false displayName =
        { href := generateHrefPath requestPath, isCollection := true,
          displayName := escapeXML displayName, contentLength := none,
          contentType := none } :: items.map (indexContentChildEntry requestPath)) ∧
    (∀ requestPath items tagName,
      (generateTagsListXML requestPath items false tagName).head? =
        some { href := escapeXML requestPath ++ [ '/' ], isCollection := true,
               displayName := escapeXML
                 (if (tagName.getD []) = [] then str "tags" else tagName.getD []),
               contentLength := none,
               contentType := some (str "httpd/unix-directory") }) := by
  refine ⟨?_, ?_, ?_, ?_⟩
  · intro pathname items folderName h
    have hmem : pathname ∉ contentXMLRootPaths := by simpa using h
    simp [generateFolderContentXML, hmem]
  · intro pathname items folderName h
    have hmem : pathname ∈ contentXMLRootPaths := by simpa using h
    simp [generateFolderContentXML, hmem]
  · intro requestPath items displayName
    rfl
  · intro requestPath items tagName
    rfl

/-- C4 witness: at depth 1 a named folder path gets no self entry from the
folders content generator, while the hierarchy generator emits one. -/
theorem c4_self_entry_policy_witness :
    generateFolderContentXML (str "/folders/My") [] false (some (str "My")) =
      ([] : List WebDAVNode).map folderContentChildEntry ∧
    generateIndexContentXML (str "/hierarchy/A") [] false (str "A") =
      { href := generateHrefPath (str "/hierarchy/A"), isCollection := true,
        displayName := escapeXML (str "A"), contentLength := none,
        contentType := none } :: ([] : List WebDAVNode).map
          (indexContentChildEntry (str "/hierarchy/A")) :=
  ⟨c4_self_entry_policy_amended.1 (str "/folders/My") [] (some (str "My")) (by decide),
    c4_self_entry_policy_amended.2.2.1 (str "/hierarchy/A") [] (str "A")⟩

/- ===================== C8 ===================== -/

/--
C8.  Whenever the backing item count exceeds 5000, `getAllEagleItems` returns
the empty list, and a PROPFIND on `/allItems` (any depth, any depth header)
is answered 207 with a multistatus holding exactly the self element and zero
children — a normal empty listing, not an error and not a truncation.
-/
theorem c8_allitems_count_threshold (st : EagleStore) (n : Nat) (req : Request)
    (hc : st.countAll = .ok n) (hn : 5000 < n)
    (ha : (authenticateRequest st.creds req.authHeader).success = true)
    (hm : req.method = str "PROPFIND")
    (hu : req.url = str "/allItems") :
    getAllEagleItems st = [] ∧
    (∀ depthHeader pathname,
      pathname = str "/allItems" ∨ pathname = str "/allItems/" →
      handleAllItemsPROPFIND st pathname depthHeader =
        routeXMLResponse 207 (.multistatus [allItemsSelfEntry])) ∧
    handleRequest st req = routeXMLResponse 207 (.multistatus [allItemsSelfEntry]) := by
  have hempty : getAllEagleItems st = [] := by
    unfold getAllEagleItems
    rw [hc]
    simp only [gt_iff_lt]
    rw [if_pos hn]
  have hgen : ∀ b, generateAllItemsListXML (str "/allItems") [] b = [allItemsSelfEntry] := by
    intro b
    cases b <;> rfl
  have hroute : ∀ depthHeader pathname,
      pathname = str "/allItems" ∨ pathname = str "/allItems/" →
      handleAllItemsPROPFIND st pathname depthHeader =
        routeXMLResponse 207 (.multistatus [allItemsSelfEntry]) := by
    intro depthHeader pathname hp
    unfold handleAllItemsPROPFIND
    rw [if_pos hp, hempty, hgen]
  have hmain : handleRequest st req =
      routeXMLResponse 207 (.multistatus [allItemsSelfEntry]) := by
    unfold handleRequest
    rw [hm, hu]
    rw [if_neg (by decide), if_neg (by simp [ha]), if_neg (by decide), if_pos rfl]
    unfold handlePropfindRequest
    rw [show parsePathname (str "/allItems") = str "/allItems" from rfl]
    rw [if_neg (by decide), if_pos (Or.inl rfl)]
    exact hroute req.depth (str "/allItems") (Or.inl rfl)
  exact ⟨hempty, hroute, hmain⟩

/-- C8 witness: a store counting 6000 items answers `/allItems` PROPFIND with
the self-only multistatus at depths 0 and 1. -/
theorem c8_allitems_count_threshold_witness :
    bigStore.countAll = .ok 6000 ∧ 5000 < 6000 ∧
    getAllEagleItems bigStore = [] ∧
    handleAllItemsPROPFIND bigStore (str "/allItems/") (some (str "0")) =
      routeXMLResponse 207 (.multistatus [allItemsSelfEntry]) ∧
    handleRequest bigStore
      { method := str "PROPFIND", url := str "/allItems",
        authHeader := some validAuthHeader, depth := some (str "1") } =
      routeXMLResponse 207 (.multistatus [allItemsSelfEntry]) :=
  ⟨rfl, by decide,
    (c8_allitems_count_threshold bigStore 6000
      { method := str "PROPFIND", url := str "/allItems",
        authHeader := some validAuthHeader, depth := some (str "1") }
      rfl (by decide) (by decide) (by decide) (by decide)).1,
    (c8_allitems_count_threshold bigStore 6000
      { method := str "PROPFIND", url := str "/allItems",
        authHeader := some validAuthHeader, depth := some (str "1") }
      rfl (by decide) (by decide) (by decide) (by decide)).2.1
      (some (str "0")) (str "/allItems/") (Or.inr rfl),
    (c8_allitems_count_threshold bigStore 6000
      { method := str "PROPFIND", url := str "/allItems",
        authHeader := some validAuthHeader, depth := some (str "1") }
      rfl (by decide) (by decide) (by decide) (by decide)).2.2⟩

/- ===================== C9 ===================== -/

/--
C9, counterexample.  With a store whose backing count call throws, an
authenticated PROPFIND on `/allItems` is answered 207 with a normal empty
multistatus (self element only), not 500: the provider catches the failure
and returns an empty list, which the route renders as a legitimate empty
collection.
-/
theorem c9_provider_failure_counterexample :
    failStore.countAll = .error (str "io failure") ∧
    handleRequest failStore
      { method := str "PROPFIND", url := str "/allItems",
        authHeader := some validAuthHeader, depth := some (str "1") } =
      routeXMLResponse 207 (.multistatus [allItemsSelfEntry]) ∧
    (handleRequest failStore
      { method := str "PROPFIND", url := str "/allItems",
        authHeader := some validAuthHeader, depth := some (str "1") }).status = 207 ∧
    (207 : Nat) ≠ 500 :=
  ⟨rfl, by decide, by decide, by decide⟩

/--
C9, amended.  A backing-store failure thrown while listing folders or items
is caught inside the provider, which returns the empty list, so the request
is answered with a normal 207 multistatus carrying an empty listing (self
element only) — never with a 500.  (The 500 path exists only for exceptions
raised outside these providers.)
-/
theorem c9_provider_failure_empty_listing_amended :
    (∀ st e, st.countAll = .error e → getAllEagleItems st = []) ∧
    (∀ st e, st.allItems = .error e → getAllEagleItems st = []) ∧
    (∀ st e, st.folders = .error e → getAllEagleFolders st = []) ∧
    (∀ st e depthHeader, st.countAll = .error e →
      handleAllItemsPROPFIND st (str "/allItems") depthHeader =
        routeXMLResponse 207 (.multistatus [allItemsSelfEntry])) ∧
    (∀ st e depthHeader, st.folders = .error e →
      handleFolderPROPFIND st (str "/folders") depthHeader =
        routeXMLResponse 207 (.multistatus [foldersSelfEntry])) := by
  have hgenA : ∀ b, generateAllItemsListXML (str "/allItems") [] b = [allItemsSelfEntry] := by
    intro b
    cases b <;> rfl
  have hgenF : ∀ b, generateFolderListXML (str "/folders") [] b = [foldersSelfEntry] := by
    intro b
    cases b <;> rfl
  have hItems : ∀ (st : EagleStore) e, st.countAll = .error e → getAllEagleItems st = [] := by
    intro st e h
    unfold getAllEagleItems
    rw [h]
  have hFolders : ∀ (st : EagleStore) e, st.folders = .error e → getAllEagleFolders st = [] := by
    intro st e h
    unfold getAllEagleFolders
    rw [h]
  refine ⟨hItems, ?_, hFolders, ?_, ?_⟩
  · intro st e h
    unfold getAllEagleItems
    cases hc : st.countAll with
    | error _ => rfl
    | ok n =>
      simp only [gt_iff_lt]
      by_cases hn : 5000 < n
      · rw [if_pos hn]
      · rw [if_neg hn, h]
  · intro st e depthHeader h
    unfold handleAllItemsPROPFIND
    rw [if_pos (Or.inl rfl), hItems st e h, hgenA]
  · intro st e depthHeader h
    unfold handleFolderPROPFIND
    rw [if_pos (Or.inl rfl), hFolders st e h, hgenF]

/-- C9 witness: the amended behaviour at the concrete failing store. -/
theorem c9_provider_failure_empty_listing_witness :
    getAllEagleItems failStore = [] ∧
    handleAllItemsPROPFIND failStore (str "/allItems") (some (str "1")) =
      routeXMLResponse 207 (.multistatus [allItemsSelfEntry]) ∧
    getAllEagleFolders { emptyStore with folders := .error (str "io failure") } = [] :=
  ⟨c9_provider_failure_empty_listing_amended.1 failStore (str "io failure") rfl,
    c9_provider_failure_empty_listing_amended.2.2.2.1 failStore (str "io failure")
      (some (str "1")) rfl,
    c9_provider_failure_empty_listing_amended.2.2.1
      { emptyStore with folders := .error (str "io failure") } (str "io failure") rfl⟩

/- ===================== C10 ===================== -/

/--
C10.  The filename-matching loop shared by the folders, allItems and tags
file handlers resolves the target as the first file child, in listing order,
satisfying the flat disjunction `nameMatches` (extension-qualified or bare
name, exact or case-insensitive); consequently resolution depends only on the
lowercased request filename (two request paths differing only in letter case
resolve to the same file), and a request naming a listed file without its
extension always resolves.
-/
theorem c10_filename_first_match :
    (∀ children filename,
      findTargetFile children filename = children.findSome?
        (fun n => match n with
          | .file it => if nameMatches it filename then some it else none
          | .dir .. => none)) ∧
    (∀ children f g, strToLower f = strToLower g →
      findTargetFile children f = findTargetFile children g) ∧
    (∀ children f it, WebDAVNode.file it ∈ children → it.name = f →
      (findTargetFile children f).isSome = true) := by
  have part1 : ∀ children filename,
      findTargetFile children filename = children.findSome?
        (fun n => match n with
          | .file it => if nameMatches it filename then some it else none
          | .dir .. => none) := by
    intro children filename
    induction children with
    | nil => rfl
    | cons hd tl ih =>
      cases hd with
      | dir i n p c => simpa [findTargetFile, List.findSome?_cons] using ih
      | file it =>
        by_cases h1 : nodeFullFileName it = filename ∨ it.name = filename
        · have hmt : nameMatches it filename = true := by
            unfold nameMatches
            rcases h1 with h | h <;> simp [h]
          simp [findTargetFile, List.findSome?_cons, h1, hmt]
        · push_neg at h1
          by_cases h2 : strToLower (nodeFullFileName it) = strToLower filename ∨
              strToLower it.name = strToLower filename
          · have hmt : nameMatches it filename = true := by
              unfold nameMatches
              rcases h2 with h | h <;> simp [h]
            have hcond : ¬ (nodeFullFileName it = filename ∨ it.name = filename) := by
              push_neg
              exact h1
            simp [findTargetFile, List.findSome?_cons, hcond, h2, hmt]
          · push_neg at h2
            have hmt : nameMatches it filename = false := by
              unfold nameMatches
              simp [h1.1, h1.2, h2.1, h2.2]
            have hcond : ¬ (nodeFullFileName it = filename ∨ it.name = filename) := by
              push_neg
              exact h1
            have hcond2 : ¬ (strToLower (nodeFullFileName it) = strToLower filename ∨
                strToLower it.name = strToLower filename) := by
              push_neg
              exact h2
            simpa [findTargetFile, List.findSome?_cons, hcond, hcond2, hmt] using ih
  have hmatch : ∀ it f g, strToLower f = strToLower g →
      nameMatches it f = nameMatches it g := by
    intro it f g hlow
    have key : ∀ a : Str, (a = f ∨ strToLower a = strToLower f) ↔
        (a = g ∨ strToLower a = strToLower g) := by
      intro a
      constructor
      · rintro (rfl | h)
        · exact Or.inr hlow
        · exact Or.inr (h.trans hlow)
      · rintro (rfl | h)
        · exact Or.inr hlow.symm
        · exact Or.inr (h.trans hlow.symm)
    unfold nameMatches
    rw [Bool.eq_iff_iff]
    simp only [Bool.or_eq_true, decide_eq_true_eq]
    constructor
    · rintro (((h | h) | h) | h)
      · rcases (key _).mp (Or.inl h) with h' | h'
        · exact Or.inl (Or.inl (Or.inl h'))
        · exact Or.inl (Or.inr h')
      · rcases (key _).mp (Or.inl h) with h' | h'
        · exact Or.inl (Or.inl (Or.inr h'))
        · exact Or.inr h'
      · rcases (key _).mp (Or.inr h) with h' | h'
        · exact Or.inl (Or.inl (Or.inl h'))
        · exact Or.inl (Or.inr h')
      · rcases (key _).mp (Or.inr h) with h' | h'
        · exact Or.inl (Or.inl (Or.inr h'))
        · exact Or.inr h'
    · rintro (((h | h) | h) | h)
      · rcases (key _).mpr (Or.inl h) with h' | h'
        · exact Or.inl (Or.inl (Or.inl h'))
        · exact Or.inl (Or.inr h')
      · rcases (key _).mpr (Or.inl h) with h' | h'
        · exact Or.inl (Or.inl (Or.inr h'))
        · exact Or.inr h'
      · rcases (key _).mpr (Or.inr h) with h' | h'
        · exact Or.inl (Or.inl (Or.inl h'))
        · exact Or.inl (Or.inr h')
      · rcases (key _).mpr (Or.inr h) with h' | h'
        · exact Or.inl (Or.inl (Or.inr h'))
        · exact Or.inr h'
  refine ⟨part1, ?_, ?_⟩
  · intro children f g hlow
    rw [part1, part1]
    have : (fun n => match n with
        | WebDAVNode.file it => if nameMatches it f then some it else none
        | WebDAVNode.dir _ _ _ _ => none) =
        (fun n => match n with
        | WebDAVNode.file it => if nameMatches it g then some it else none
        | WebDAVNode.dir _ _ _ _ => none) := by
      funext n
      cases n with
      | file it =>
        show (if nameMatches it f then some it else none) =
          (if nameMatches it g then some it else none)
        rw [hmatch it f g hlow]
      | dir i nm p c => rfl
    rw [this]
  · intro children f it hmem hname
    rw [part1]
    cases hfind : children.findSome?
        (fun n => match n with
          | WebDAVNode.file it => if nameMatches it f then some it else none
          | WebDAVNode.dir _ _ _ _ => none) with
    | some x => rfl
    | none =>
      exfalso
      have hall : (if nameMatches it f then some it else none) =
          (none : Option EagleWebDAVFile) :=
        List.findSome?_eq_none_iff.mp hfind _ hmem
      have hmt : nameMatches it f = true := by
        unfold nameMatches
        simp [hname]
      rw [hmt] at hall
      simp at hall

/-- C10 witness: case-changed and extension-less requests resolve against a
concrete listing. -/
theorem c10_filename_first_match_witness :
    strToLower (str "PHOTO.JPG") = strToLower (str "photo.jpg") ∧
    findTargetFile [WebDAVNode.file (toWebFile sunsetItem)] (str "PHOTO.JPG") =
      findTargetFile [WebDAVNode.file (toWebFile sunsetItem)] (str "photo.jpg") ∧
    (findTargetFile [WebDAVNode.file (toWebFile sunsetItem)] (str "photo")).isSome = true :=
  ⟨by decide,
    c10_filename_first_match.2.1 [WebDAVNode.file (toWebFile sunsetItem)]
      (str "PHOTO.JPG") (str "photo.jpg") (by decide),
    c10_filename_first_match.2.2 [WebDAVNode.file (toWebFile sunsetItem)]
      (str "photo") (toWebFile sunsetItem) (List.mem_cons_self _ _) (by decide)⟩

/- ===================== path dissection lemmas ===================== -/

theorem splitOnChar_no_sep {sep : Char} : ∀ {s : Str}, sep ∉ s → splitOnChar sep s = [s] := by
  intro s
  induction s with
  | nil => intro _; rfl
  | cons c rest ih =>
    intro h
    have hc : c ≠ sep := fun hc => h (hc ▸ List.mem_cons_self c rest)
    have hr : sep ∉ rest := fun hr => h (List.mem_cons_of_mem c hr)
    simp [splitOnChar, hc, ih hr]

theorem splitOnChar_append_sep {sep : Char} (b : Str) :
    ∀ {a : Str}, sep ∉ a → splitOnChar sep (a ++ sep :: b) = a :: splitOnChar sep b := by
  intro a
  induction a with
  | nil => intro _; simp [splitOnChar]
  | cons c rest ih =>
    intro h
    have hc : c ≠ sep := fun hc => h (hc ▸ List.mem_cons_self c rest)
    have hr : sep ∉ rest := fun hr => h (List.mem_cons_of_mem c hr)
    simp [splitOnChar, hc, ih hr]

theorem intercalate_single (sep : Str) (x : Str) : List.intercalate sep [x] = x := by
  simp [List.intercalate]

theorem parsePathname_of_no_query {s : Str} (h : '?' ∉ s) (hne : s ≠ []) :
    parsePathname s = s := by
  unfold parsePathname
  rw [splitOnChar_no_sep h]
  simp [hne]

theorem dropOneTrailingSlash_of_last_ne {s : Str} (h : s.getLast? ≠ some '/') :
    dropOneTrailingSlash s = s := by
  unfold dropOneTrailingSlash
  rw [if_neg h]

theorem isCanonical_of_no_percent {s : Str} (h : '%' ∉ s) : isCanonicalStr s = true := by
  unfold isCanonicalStr
  rw [decode_no_percent h]
  simp

theorem lastOk_getLast_ne_slash {s : Str} (h : lastOkC2 s = true) :
    s.getLast? ≠ some '/' := by
  intro hl
  unfold lastOkC2 at h
  rw [hl] at h
  simp at h

/-- Dispatch helper: an authenticated GET reaches `handleGetRequest` on the
parsed pathname. -/
theorem handleRequest_get (st : EagleStore) (req : Request)
    (ha : (authenticateRequest st.creds req.authHeader).success = true)
    (hm : req.method = str "GET") :
    handleRequest st req = handleGetRequest st (parsePathname req.url) := by
  unfold handleRequest
  rw [hm]
  rw [if_neg (by simp [str]), if_neg (by simp [ha]), if_pos rfl]

/-- Dispatch helper: an authenticated HEAD reaches `handleHeadRequest`. -/
theorem handleRequest_head (st : EagleStore) (req : Request)
    (ha : (authenticateRequest st.creds req.authHeader).success = true)
    (hm : req.method = str "HEAD") :
    handleRequest st req = handleHeadRequest st (parsePathname req.url) := by
  unfold handleRequest
  rw [hm]
  rw [if_neg (by simp [str]), if_neg (by simp [ha]), if_neg (by simp [str]),
    if_neg (by simp [str]), if_pos rfl]

/- ===================== C7 ===================== -/

/--
C7, counterexample.  An authenticated HEAD on `/no-such-path`, a path that
resolves to nothing in the (empty) backing store, is answered 200, not 404:
`handleHeadRequest` resolves only `/files/` paths and answers every other
path 200 unconditionally.
-/
theorem c7_unresolved_head_counterexample :
    handleRequest emptyStore
      { method := str "HEAD", url := str "/no-such-path",
        authHeader := some validAuthHeader, depth := none } =
      { status := 200, headers := corsHeaders, body := .empty } ∧
    (handleRequest emptyStore
      { method := str "HEAD", url := str "/no-such-path",
        authHeader := some validAuthHeader, depth := none }).status ≠ 404 :=
  ⟨by decide, by decide⟩

/--
C7, amended.  Unresolved paths are answered 404 only on the resolving
branches: a GET or HEAD on `/files/{id}` with an unknown id is 404, and a GET
on a file path inside an unknown folder is 404, as is a GET on an unknown
top-level path.  But a HEAD on any path outside `/files/` is answered 200
without resolution, and (per the dispatchers) a GET on a single-segment
collection name is answered 405 without resolution, so the blanket
"unresolved implies 404" of the claim fails for HEAD.
-/
theorem c7_unresolved_amended :
    (∀ st req, (authenticateRequest st.creds req.authHeader).success = true →
      req.method = str "HEAD" →
      (str "/files/").isPrefixOf (parsePathname req.url) = false →
      handleRequest st req = { status := 200, headers := corsHeaders, body := .empty }) ∧
    (∀ st req id, (authenticateRequest st.creds req.authHeader).success = true →
      req.method = str "HEAD" → req.url = str "/files/" ++ id →
      '?' ∉ id → '/' ∉ id → id.getLast? ≠ some '/' →
      getFileById st id = none →
      handleRequest st req = { status := 404, headers := corsHeaders, body := .empty }) ∧
    (∀ st req id, (authenticateRequest st.creds req.authHeader).success = true →
      req.method = str "GET" → req.url = str "/files/" ++ id →
      '?' ∉ id → '/' ∉ id → id.getLast? ≠ some '/' →
      getFileById st id = none →
      handleRequest st req = sendResponse 404 (str "File not found")) ∧
    (∀ st req name filename dn,
      (authenticateRequest st.creds req.authHeader).success = true →
      req.method = str "GET" →
      req.url = str "/folders/" ++ (name ++ '/' :: filename) →
      name ≠ [] → '?' ∉ name → '/' ∉ name →
      filename ≠ [] → '?' ∉ filename → '/' ∉ filename →
      decodeURIComponentChars name = some dn →
      getFolderByName st dn = none →
      handleRequest st req = sendResponse 404 (str "Folder not found")) ∧
    (∀ st req p, (authenticateRequest st.creds req.authHeader).success = true →
      req.method = str "GET" → parsePathname req.url = p →
      p ≠ str "/" →
      ¬ (p = str "/allItems" ∨ p = str "/allItems/" ∨
         (str "/allItems/").isPrefixOf p = true) →
      ¬ (p = str "/folders" ∨ p = str "/folders/" ∨
         (str "/folders/").isPrefixOf p = true) →
      ¬ (p = str "/hierarchy" ∨ p = str "/hierarchy/" ∨
         (str "/hierarchy/").isPrefixOf p = true) →
      ¬ (p = str "/tags" ∨ p = str "/tags/" ∨
         (str "/tags/").isPrefixOf p = true) →
      (str "/files/").isPrefixOf p = false →
      p ≠ str "/health" →
      handleRequest st req = sendResponse 404 (str "Not found")) := by
  refine ⟨?_, ?_, ?_, ?_, ?_⟩
  · intro st req ha hm hpre
    rw [handleRequest_head st req ha hm]
    unfold handleHeadRequest
    rw [if_neg (by simp [hpre])]
  · intro st req id ha hm hu hq hs hlast hfile
    have hq' : '?' ∉ str "/files/" ++ id := by
      intro hmem
      rcases List.mem_append.mp hmem with h | h
      · exact absurd h (by decide)
      · exact hq h
    have hne' : str "/files/" ++ id ≠ [] := by
      intro h
      have hl := congrArg List.length h
      rw [List.length_append] at hl
      simp at hl
      exact absurd hl.1 (by decide)
    rw [handleRequest_head st req ha hm, hu, parsePathname_of_no_query hq' hne']
    unfold handleHeadRequest
    rw [if_pos (by simp [str, List.isPrefixOf])]
    unfold handleFilesHEAD
    rw [if_pos (by simp [str, List.isPrefixOf])]
    have hdrop : (str "/files/" ++ id).drop 7 = id := by
      rw [show (7 : Nat) = (str "/files/").length from rfl]
      exact List.drop_left _ _
    rw [hdrop, dropOneTrailingSlash_of_last_ne hlast, splitOnChar_no_sep hs]
    simp only [List.getD, List.get?, Option.getD]
    rw [hfile]
  · intro st req id ha hm hu hq hs hlast hfile
    have hq' : '?' ∉ str "/files/" ++ id := by
      intro hmem
      rcases List.mem_append.mp hmem with h | h
      · exact absurd h (by decide)
      · exact hq h
    have hne' : str "/files/" ++ id ≠ [] := by
      intro h
      have hl := congrArg List.length h
      rw [List.length_append] at hl
      simp at hl
      exact absurd hl.1 (by decide)
    rw [handleRequest_get st req ha hm, hu, parsePathname_of_no_query hq' hne']
    unfold handleGetRequest
    rw [if_neg (by simp [str]), if_neg (by simp [str, List.isPrefixOf]),
      if_neg (by simp [str, List.isPrefixOf]), if_neg (by simp [str, List.isPrefixOf]),
      if_neg (by simp [str, List.isPrefixOf]), if_pos (by simp [str, List.isPrefixOf])]
    unfold handleFilesGET
    rw [if_pos (by simp [str, List.isPrefixOf])]
    have hdrop : (str "/files/" ++ id).drop 7 = id := by
      rw [show (7 : Nat) = (str "/files/").length from rfl]
      exact List.drop_left _ _
    rw [hdrop, dropOneTrailingSlash_of_last_ne hlast, splitOnChar_no_sep hs]
    simp only [List.getD, List.get?, Option.getD]
    rw [hfile]
  · intro st req name filename dn ha hm hu hn hqn hsn hf hqf hsf hdec hfold
    have hq' : '?' ∉ str "/folders/" ++ (name ++ '/' :: filename) := by
      intro hmem
      rcases List.mem_append.mp hmem with h | h
      · exact absurd h (by decide)
      · rcases List.mem_append.mp h with h' | h'
        · exact hqn h'
        · rcases List.mem_cons.mp h' with h'' | h''
          · exact absurd h''.symm (by decide)
          · exact hqf h''
    have hne' : str "/folders/" ++ (name ++ '/' :: filename) ≠ [] := by
      intro h
      have hl := congrArg List.length h
      simp [List.length_append] at hl
    rw [handleRequest_get st req ha hm, hu, parsePathname_of_no_query hq' hne']
    unfold handleGetRequest
    rw [if_neg (by simp [str]), if_neg (by simp [str, List.isPrefixOf]),
      if_pos (by simp [str, List.isPrefixOf])]
    unfold handleFolderGET
    have hdrop : (str "/folders/" ++ (name ++ '/' :: filename)).drop 9 =
        name ++ '/' :: filename := by
      rw [show (9 : Nat) = (str "/folders/").length from rfl]
      exact List.drop_left _ _
    rw [hdrop, splitOnChar_append_sep filename hsn, splitOnChar_no_sep hsf]
    rw [if_neg ?hroot, if_neg ?hlen1, if_pos ?hlen2]
    case hroot =>
      rintro (h | h)
      · simp [str] at h
      · simp [str] at h
    case hlen1 =>
      rintro ⟨h, _⟩
      simp at h
    case hlen2 =>
      refine ⟨by simp, by simpa using hn, by simpa using hf⟩
    have hint : List.intercalate [ '/' ] (List.drop 1 [name, filename]) = filename := by
      simp [intercalate_single]
    simp only [List.getD, List.get?, Option.getD, hdec]
    rw [hint]
    unfold handleFolderFileRequest
    simp only [hfold]
  · intro st req p ha hm hp h1 h2 h3 h4 h5 h6 h7
    rw [handleRequest_get st req ha hm, hp]
    unfold handleGetRequest
    rw [if_neg h1, if_neg h2, if_neg h3, if_neg h4, if_neg h5,
      if_neg (by simp [h6]), if_neg h7]

/-- C7 witness: concrete unresolved requests for every amended branch. -/
theorem c7_unresolved_amended_witness :
    handleRequest emptyStore
      { method := str "HEAD", url := str "/tags/nope",
        authHeader := some validAuthHeader, depth := none } =
      { status := 200, headers := corsHeaders, body := .empty } ∧
    handleRequest emptyStore
      { method := str "HEAD", url := str "/files/" ++ str "zz9",
        authHeader := some validAuthHeader, depth := none } =
      { status := 404, headers := corsHeaders, body := .empty } ∧
    handleRequest emptyStore
      { method := str "GET", url := str "/files/" ++ str "zz9",
        authHeader := some validAuthHeader, depth := none } =
      sendResponse 404 (str "File not found") ∧
    handleRequest emptyStore
      { method := str "GET", url := str "/folders/" ++ (str "ghost" ++ '/' :: str "a.png"),
        authHeader := some validAuthHeader, depth := none } =
      sendResponse 404 (str "Folder not found") ∧
    handleRequest emptyStore
      { method := str "GET", url := str "/no-such-path",
        authHeader := some validAuthHeader, depth := none } =
      sendResponse 404 (str "Not found") :=
  ⟨c7_unresolved_amended.1 emptyStore
      { method := str "HEAD", url := str "/tags/nope",
        authHeader := some validAuthHeader, depth := none }
      (by decide) (by decide) (by decide),
    c7_unresolved_amended.2.1 emptyStore
      { method := str "HEAD", url := str "/files/" ++ str "zz9",
        authHeader := some validAuthHeader, depth := none } (str "zz9")
      (by decide) (by decide) rfl (by decide) (by decide) (by decide) (by decide),
    c7_unresolved_amended.2.2.1 emptyStore
      { method := str "GET", url := str "/files/" ++ str "zz9",
        authHeader := some validAuthHeader, depth := none } (str "zz9")
      (by decide) (by decide) rfl (by decide) (by decide) (by decide) (by decide),
    c7_unresolved_amended.2.2.2.1 emptyStore
      { method := str "GET", url := str "/folders/" ++ (str "ghost" ++ '/' :: str "a.png"),
        authHeader := some validAuthHeader, depth := none }
      (str "ghost") (str "a.png") (str "ghost")
      (by decide) (by decide) rfl (by decide) (by decide) (by decide)
      (by decide) (by decide) (by decide) (by decide) rfl,
    c7_unresolved_amended.2.2.2.2 emptyStore
      { method := str "GET", url := str "/no-such-path",
        authHeader := some validAuthHeader, depth := none } (str "/no-such-path")
      (by decide) (by decide) (by decide) (by decide) (by decide) (by decide)
      (by decide) (by decide) (by decide) (by decide)⟩

/- ===================== C6 ===================== -/

/--
C6, counterexample.  An authenticated GET on the collection `/folders` is
answered 405, but the response carries no `Allow` header at all (it is the
route handler's JSON 405, not `sendMethodNotAllowedForCollection`), so the
claim that every GET-on-collection 405 carries an `Allow` header containing
PROPFIND fails.
-/
theorem c6_collection_get_counterexample :
    handleRequest emptyStore
      { method := str "GET", url := str "/folders",
        authHeader := some validAuthHeader, depth := none } =
      sendResponse 405 (str "Method not allowed on collections") ∧
    (handleRequest emptyStore
      { method := str "GET", url := str "/folders",
        authHeader := some validAuthHeader, depth := none }).status = 405 ∧
    ((handleRequest emptyStore
      { method := str "GET", url := str "/folders",
        authHeader := some validAuthHeader, depth := none }).headers.map
        Prod.fst).contains (str "Allow") = false :=
  ⟨by decide, by decide, by decide⟩

/--
C6, amended.  Every authenticated GET on a collection path is answered 405,
but only the server root `/` is answered by
`sendMethodNotAllowedForCollection`, whose `Allow` header value
`OPTIONS, PROPFIND, HEAD` contains PROPFIND; the namespace roots and the
named folder, tag and hierarchy collections are answered by the route
handlers' JSON 405 without any `Allow` header.
-/
theorem c6_collection_get_allow_amended :
    (∀ st req, (authenticateRequest st.creds req.authHeader).success = true →
      req.method = str "GET" → req.url = str "/" →
      handleRequest st req = sendMethodNotAllowedForCollection (str "/") ∧
      (str "Allow", str "OPTIONS, PROPFIND, HEAD") ∈ (handleRequest st req).headers ∧
      (str "PROPFIND") <:+: (str "OPTIONS, PROPFIND, HEAD")) ∧
    (∀ st req, (authenticateRequest st.creds req.authHeader).success = true →
      req.method = str "GET" →
      req.url ∈ [str "/folders", str "/folders/", str "/allItems", str "/allItems/",
        str "/tags", str "/tags/", str "/hierarchy", str "/hierarchy/"] →
      (handleRequest st req).status = 405 ∧
      ((handleRequest st req).headers.map Prod.fst).contains (str "Allow") = false) ∧
    (∀ st req name, (authenticateRequest st.creds req.authHeader).success = true →
      req.method = str "GET" → name ≠ [] → '/' ∉ name → '?' ∉ name →
      (req.url = str "/folders/" ++ name ∨ req.url = str "/tags/" ++ name) →
      handleRequest st req = sendResponse 405 (str "Method not allowed on collections") ∧
      ((handleRequest st req).headers.map Prod.fst).contains (str "Allow") = false) ∧
    (∀ st req name, (authenticateRequest st.creds req.authHeader).success = true →
      req.method = str "GET" → name ≠ [] → '/' ∉ name → '?' ∉ name → '%' ∉ name →
      headOkC2 name = true → lastOkC2 name = true →
      req.url = str "/hierarchy/" ++ name →
      handleRequest st req = sendResponse 405 (str "Method not allowed on collections") ∧
      ((handleRequest st req).headers.map Prod.fst).contains (str "Allow") = false) := by
  refine ⟨?_, ?_, ?_, ?_⟩
  · intro st req ha hm hu
    have key : handleRequest st req = sendMethodNotAllowedForCollection (str "/") := by
      rw [handleRequest_get st req ha hm, hu]
      rfl
    exact ⟨key, by rw [key]; decide, by decide⟩
  · intro st req ha hm hu
    simp only [List.mem_cons, List.not_mem_nil, or_false] at hu
    rcases hu with h | h | h | h | h | h | h | h <;>
      rw [handleRequest_get st req ha hm, h] <;>
      exact ⟨by rfl, by rfl⟩
  · intro st req name ha hm hn hs hq hu
    have key : handleRequest st req =
        sendResponse 405 (str "Method not allowed on collections") := by
      rcases hu with hu | hu
      · have hq' : '?' ∉ str "/folders/" ++ name := by
          intro hmem
          rcases List.mem_append.mp hmem with h | h
          · exact absurd h (by decide)
          · exact hq h
        have hne' : str "/folders/" ++ name ≠ [] := by
          intro h
          have hl := congrArg List.length h
          simp [List.length_append] at hl
          exact absurd hl.1 (by decide)
        rw [handleRequest_get st req ha hm, hu, parsePathname_of_no_query hq' hne']
        unfold handleGetRequest
        rw [if_neg (by simp [str]), if_neg (by simp [str, List.isPrefixOf]),
          if_pos (by simp [str, List.isPrefixOf])]
        unfold handleFolderGET
        have hdrop : (str "/folders/" ++ name).drop 9 = name := by
          rw [show (9 : Nat) = (str "/folders/").length from rfl]
          exact List.drop_left _ _
        rw [hdrop, splitOnChar_no_sep hs]
        rw [if_neg ?hroot, if_pos ?hlen1]
        case hroot =>
          rintro (h | h)
          · simp [str] at h
          · simp [str] at h
            exact hn h
        case hlen1 =>
          exact ⟨by simp, by simpa using hn⟩
      · have hq' : '?' ∉ str "/tags/" ++ name := by
          intro hmem
          rcases List.mem_append.mp hmem with h | h
          · exact absurd h (by decide)
          · exact hq h
        have hne' : str "/tags/" ++ name ≠ [] := by
          intro h
          have hl := congrArg List.length h
          simp [List.length_append] at hl
          exact absurd hl.1 (by decide)
        rw [handleRequest_get st req ha hm, hu, parsePathname_of_no_query hq' hne']
        unfold handleGetRequest
        rw [if_neg (by simp [str]), if_neg (by simp [str, List.isPrefixOf]),
          if_neg (by simp [str, List.isPrefixOf]), if_neg (by simp [str, List.isPrefixOf]),
          if_pos (by simp [str, List.isPrefixOf])]
        unfold handleTagsGET
        have hdrop : (str "/tags/" ++ name).drop 6 = name := by
          rw [show (6 : Nat) = (str "/tags/").length from rfl]
          exact List.drop_left _ _
        rw [hdrop, splitOnChar_no_sep hs]
        have hfilter : ([name] : List Str).filter (· ≠ []) = [name] := by
          simp [List.filter_cons, hn]
        rw [hfilter]
        rw [if_neg ?htroot, if_pos ?htpre, if_pos ?htlen]
        case htroot =>
          rintro (h | h)
          · simp [str] at h
          · simp [str] at h
            exact hn h
        case htpre =>
          simp [str, List.isPrefixOf]
        case htlen =>
          rfl
    exact ⟨key, by rw [key]; decide⟩
  · intro st req name ha hm hn hs hq hpct hhd hlst hu
    have key : handleRequest st req =
        sendResponse 405 (str "Method not allowed on collections") := by
      have hq' : '?' ∉ str "/hierarchy/" ++ name := by
        intro hmem
        rcases List.mem_append.mp hmem with h | h
        · exact absurd h (by decide)
        · exact hq h
      have hne' : str "/hierarchy/" ++ name ≠ [] := by
        intro h
        have hl := congrArg List.length h
        simp [List.length_append] at hl
        exact absurd hl.1 (by decide)
      rw [handleRequest_get st req ha hm, hu, parsePathname_of_no_query hq' hne']
      unfold handleGetRequest
      rw [if_neg (by simp [str]), if_neg (by simp [str, List.isPrefixOf]),
        if_neg (by simp [str, List.isPrefixOf]), if_pos (by simp [str, List.isPrefixOf])]
      unfold handleIndexGET
      have hdrop : (str "/hierarchy/" ++ name).drop 11 = name := by
        rw [show (11 : Nat) = (str "/hierarchy/").length from rfl]
        exact List.drop_left _ _
      rw [hdrop, dropOneTrailingSlash_of_last_ne (lastOk_getLast_ne_slash hlst),
        normalizePath_fixed (isCanonical_of_no_percent hpct) hhd hlst]
      have hfilter : ([name] : List Str).filter (· ≠ []) = [name] := by
        simp [List.filter_cons, hn]
      simp only [splitOnChar_no_sep hs, hfilter]
      rw [if_neg ?hhroot, if_pos ?hhpre, if_pos ?hhlen]
      case hhroot =>
        rintro (h | h)
        · simp [str] at h
        · simp [str] at h
          exact hn h
      case hhpre =>
        simp [str, List.isPrefixOf]
      case hhlen =>
        rfl
    exact ⟨key, by rw [key]; decide⟩

/-- C6 witness: the amended behaviour at concrete collection paths. -/
theorem c6_collection_get_allow_witness :
    handleRequest emptyStore
      { method := str "GET", url := str "/",
        authHeader := some validAuthHeader, depth := none } =
      sendMethodNotAllowedForCollection (str "/") ∧
    (handleRequest emptyStore
      { method := str "GET", url := str "/tags",
        authHeader := some validAuthHeader, depth := none }).status = 405 ∧
    handleRequest emptyStore
      { method := str "GET", url := str "/tags/" ++ str "sunset",
        authHeader := some validAuthHeader, depth := none } =
      sendResponse 405 (str "Method not allowed on collections") ∧
    handleRequest emptyStore
      { method := str "GET", url := str "/hierarchy/" ++ str "Alpha",
        authHeader := some validAuthHeader, depth := none } =
      sendResponse 405 (str "Method not allowed on collections") :=
  ⟨(c6_collection_get_allow_amended.1 emptyStore
      { method := str "GET", url := str "/",
        authHeader := some validAuthHeader, depth := none }
      (by decide) (by decide) (by decide)).1,
    (c6_collection_get_allow_amended.2.1 emptyStore
      { method := str "GET", url := str "/tags",
        authHeader := some validAuthHeader, depth := none }
      (by decide) (by decide) (by decide)).1,
    (c6_collection_get_allow_amended.2.2.1 emptyStore
      { method := str "GET", url := str "/tags/" ++ str "sunset",
        authHeader := some validAuthHeader, depth := none } (str "sunset")
      (by decide) (by decide) (by decide) (by decide) (by decide)
      (Or.inr rfl)).1,
    (c6_collection_get_allow_amended.2.2.2 emptyStore
      { method := str "GET", url := str "/hierarchy/" ++ str "Alpha",
        authHeader := some validAuthHeader, depth := none } (str "Alpha")
      (by decide) (by decide) (by decide) (by decide) (by decide) (by decide)
      (by decide) (by decide) rfl).1⟩
